import Mathlib

/-
Shallow embedding of the SmartShopSaver price-tracking subsystem
(src/price_tracker.py) and proofs about it.

Modelling conventions:
* Python strings are Lean `String`s; `String.data` is the list of unicode
  code points, matching Python's per-codepoint `len`, iteration and
  slicing semantics.  All string primitives used by the source
  (`lower`, `in`, `replace`, `strip`, `split`, `re.sub` over the concrete
  patterns appearing in the source) are embedded explicitly below.
* Python `float` prices and scores are modelled as `ℚ`.  Every constant
  in the source (0.8, 0.7, 0.3, 0.1, 0.65, …) is exactly representable,
  and the source only multiplies, divides and compares them; no claim
  under consideration depends on binary floating-point rounding.
* `difflib.SequenceMatcher(None, a, b).ratio()` is external library code
  (not part of this repository); it is modelled as an explicit function
  parameter `sim : String → String → ℚ`, over which all theorems
  quantify.
* Scanning loops that consume more than one character per step are
  written with an explicit fuel argument; callers pass the input length,
  which over-approximates the number of steps (each step consumes at
  least one character), so the fuel-exhaustion branch is unreachable on
  actual calls.
-/

/-- Embeds Python `str.lower` on one code point.  Only the basic Latin
letters A–Z are case-mapped; the repository's vocabulary is ASCII plus
CJK, and CJK code points are caseless in Python too. -/
def pyCharLower (c : Char) : Char :=
  if c = 'A' then 'a' else if c = 'B' then 'b' else if c = 'C' then 'c'
  else if c = 'D' then 'd' else if c = 'E' then 'e' else if c = 'F' then 'f'
  else if c = 'G' then 'g' else if c = 'H' then 'h' else if c = 'I' then 'i'
  else if c = 'J' then 'j' else if c = 'K' then 'k' else if c = 'L' then 'l'
  else if c = 'M' then 'm' else if c = 'N' then 'n' else if c = 'O' then 'o'
  else if c = 'P' then 'p' else if c = 'Q' then 'q' else if c = 'R' then 'r'
  else if c = 'S' then 's' else if c = 'T' then 't' else if c = 'U' then 'u'
  else if c = 'V' then 'v' else if c = 'W' then 'w' else if c = 'X' then 'x'
  else if c = 'Y' then 'y' else if c = 'Z' then 'z' else c

/-- Embeds Python `str.lower`. -/
def pyLower (s : String) : String :=
  ⟨s.data.map pyCharLower⟩

/-- Embeds Python's substring test `needle in hay` on code-point lists. -/
def isSubL (needle : List Char) : List Char → Bool
  | [] => needle.isEmpty
  | c :: rest => needle.isPrefixOf (c :: rest) || isSubL needle rest

/-- Embeds Python's substring test `needle in hay` on strings. -/
def pyContains (needle hay : String) : Bool :=
  isSubL needle.data hay.data

/-- Fuelled scanner for Python `str.replace(pat, repl)` (replace every
non-overlapping occurrence, scanning left to right).  `pat` is assumed
non-empty (guarded by the wrapper); each step consumes at least one
character, so fuel = input length suffices. -/
def pyReplaceF (pat repl : List Char) : Nat → List Char → List Char
  | 0, l => l
  | _ + 1, [] => []
  | n + 1, c :: rest =>
    if pat.isPrefixOf (c :: rest) then
      repl ++ pyReplaceF pat repl n (List.drop (pat.length - 1) rest)
    else
      c :: pyReplaceF pat repl n rest

/-- Embeds Python `s.replace(pat, repl)`.  The empty-pattern case (which
Python treats as inserting `repl` between all characters) never occurs in
the source — every alias and keyword is non-empty — and is mapped to the
identity. -/
def pyReplace (s pat repl : String) : String :=
  if pat.data.isEmpty then s
  else ⟨pyReplaceF pat.data repl.data s.data.length s.data⟩

/-- Whitespace class of Python `str.strip()` / `str.split()` for the
ASCII range (the only whitespace occurring in the repository's data). -/
def isPySpace (c : Char) : Bool :=
  c = ' ' || c = '\t' || c = '\n' || c = '\r' || c = '\x0b' || c = '\x0c'

/-- Embeds Python `str.strip()` on code-point lists. -/
def stripL (l : List Char) : List Char :=
  ((l.dropWhile isPySpace).reverse.dropWhile isPySpace).reverse

/-- Embeds Python `str.strip()`. -/
def pyStrip (s : String) : String :=
  ⟨stripL s.data⟩

/-- Fuelled scanner for Python `str.split()` with no argument: split on
runs of whitespace, discarding empty fields. -/
def splitWsF : Nat → List Char → List (List Char)
  | 0, _ => []
  | _ + 1, [] => []
  | n + 1, c :: rest =>
    if isPySpace c then splitWsF n rest
    else
      (c :: rest.takeWhile (fun d => !isPySpace d)) ::
        splitWsF n (rest.dropWhile (fun d => !isPySpace d))

/-- Embeds Python `s.split()`. -/
def pySplitWs (s : String) : List String :=
  (splitWsF s.data.length s.data).map String.mk

/-- Embeds Python `' '.join(ws)`. -/
def joinSpace (ws : List String) : String :=
  ⟨List.intercalate [' '] (ws.map String.data)⟩

/-- Embeds Python `s.split(sep)` for a one-character separator (the only
form the source uses, with `sep` = '萬' or '千').  Always returns at
least one field, like Python. -/
def splitCharL (sep : Char) : List Char → List (List Char)
  | [] => [[]]
  | c :: rest =>
    match splitCharL sep rest with
    | [] => [[]]
    | h :: t => if c = sep then [] :: h :: t else (c :: h) :: t

/-- Numeric value of a run of decimal digits (used for Python
`float(num.replace(',', ''))` on comma-stripped digit runs, whose value
is a non-negative integer). -/
def natFromDigits (l : List Char) : Nat :=
  l.foldl (fun acc c => acc * 10 + (c.toNat - 48)) 0

/-- Accessory vocabulary, Chinese entries
(`ProductFilterEngine.accessory_keywords['zh']`, src/price_tracker.py
lines 58–67), verbatim and in source order. -/
def accessory_keywords_zh : List String :=
  ["保護套", "保護殼", "手機殼", "螢幕保護貼", "保護貼", "鋼化膜",
   "充電器", "充電線", "傳輸線", "USB", "轉接頭", "轉接器",
   "耳機套", "耳機殼", "耳機塞", "耳塞", "海綿套",
   "支架", "車架", "桌架", "手機架",
   "貼紙", "裝飾貼", "彩繪", "背貼",
   "清潔", "清潔劑", "清潔布", "拭鏡布",
   "配件包", "組合包", "套裝",
   "維修", "更換", "零件", "適用於", "相容"]

/-- Accessory vocabulary, English entries
(`ProductFilterEngine.accessory_keywords['en']`, lines 68–77). -/
def accessory_keywords_en : List String :=
  ["case", "cover", "protector", "screen", "tempered", "glass",
   "charger", "cable", "cord", "adapter", "usb",
   "tips", "foam", "silicone", "rubber",
   "stand", "holder", "mount", "dock",
   "skin", "decal", "sticker",
   "cleaning", "cleaner", "cloth",
   "kit", "bundle", "package",
   "replacement", "spare", "repair", "compatible", "for"]

/-- Brand-family table `ProductFilterEngine.brand_exclusions`
(lines 81–87); the list preserves Python's dict insertion order, which
`has_brand_conflict` iterates over. -/
def brand_exclusions : List (String × List String) :=
  [("iphone", ["samsung", "xiaomi", "oppo", "vivo", "huawei", "sony", "htc"]),
   ("ps5", ["xbox", "switch", "nintendo", "pc"]),
   ("airpods", ["sony", "bose", "sennheiser", "jbl", "beats"]),
   ("macbook", ["dell", "hp", "asus", "acer", "lenovo", "msi"]),
   ("viper", ["logitech", "steelseries", "corsair", "roccat"])]

/-- Embeds `ProductFilterEngine.is_accessory` (lines 89–103): the name
is lowercased and tested for containment of any accessory keyword,
Chinese list first, then English.  (The `'USB'` entry of the Chinese
list is compared verbatim against the lowercased name, as in the
source, so it can never match — the lowercase `'usb'` entry of the
English list is the one that fires.) -/
def is_accessory (product_name : String) : Bool :=
  let product_lower := pyLower product_name
  accessory_keywords_zh.any (fun k => pyContains k product_lower) ||
    accessory_keywords_en.any (fun k => pyContains k product_lower)

/-- Embeds `ProductFilterEngine.has_brand_conflict` (lines 105–126):
the first brand key (in table order) contained in the lowercased target
name selects the family; the candidate conflicts iff it contains one of
that family's competing brand keywords. -/
def has_brand_conflict (product_name target_name : String) : Bool :=
  let product_lower := pyLower product_name
  let target_lower := pyLower target_name
  match brand_exclusions.find? (fun bp => pyContains bp.1 target_lower) with
  | none => false
  | some bp => bp.2.any (fun b => pyContains b product_lower)

/-- Word-character class of Python's `re` `\w` as used by
`calculate_relevance_score`'s `re.sub(r'[^\w\s]', ' ', …)`: ASCII
letters, digits and underscore, plus CJK unified ideographs (the only
non-ASCII word characters occurring in the repository's vocabulary). -/
def pyIsWordChar (c : Char) : Bool :=
  c.isAlphanum || c = '_' || (0x4E00 ≤ c.toNat && c.toNat ≤ 0x9FFF)

/-- One step of `re.sub(r'[^\w\s]', ' ', s)`: non-word, non-space code
points become a space. -/
def cleanTextChar (c : Char) : Char :=
  if pyIsWordChar c || isPySpace c then c else ' '

/-- Embeds the normalisation both names undergo inside
`calculate_relevance_score` (lines 130–131):
`re.sub(r'[^\w\s]', ' ', name.lower()).strip()`. -/
def clean_name (s : String) : String :=
  pyStrip ⟨(pyLower s).data.map cleanTextChar⟩

/-- Embeds Python's builtin `max(a, b)` on numbers (needed in explicit
form so that concrete scores kernel-reduce). -/
def pyMax (a b : ℚ) : ℚ :=
  if b > a then b else a

/-- Embeds `ProductFilterEngine.calculate_relevance_score`
(lines 128–156).  `sim` stands for the external
`difflib.SequenceMatcher(None, a, b).ratio()` call. -/
def calculate_relevance_score (sim : String → String → ℚ)
    (product_name target_name : String) : ℚ :=
  let product_clean := clean_name product_name
  let target_clean := clean_name target_name
  let base1 : ℚ :=
    if pyContains target_clean product_clean then 0.8
    else sim product_clean target_clean
  let tw := (pySplitWs target_clean).eraseDups
  let pw := pySplitWs product_clean
  let base2 : ℚ :=
    if tw.isEmpty then base1
    else pyMax base1 (((tw.filter (fun w => pw.contains w)).length : ℚ) / (tw.length : ℚ) * 0.7)
  let base3 : ℚ := if is_accessory product_name then base2 * 0.3 else base2
  if has_brand_conflict product_name target_name then base3 * 0.1 else base3

/-- The score `calculate_relevance_score` computes up to (and
including) the accessory penalty but without the final brand-conflict
step — the "pre-penalty score" in the words of the specification. -/
def calculate_relevance_score_pre_brand (sim : String → String → ℚ)
    (product_name target_name : String) : ℚ :=
  let product_clean := clean_name product_name
  let target_clean := clean_name target_name
  let base1 : ℚ :=
    if pyContains target_clean product_clean then 0.8
    else sim product_clean target_clean
  let tw := (pySplitWs target_clean).eraseDups
  let pw := pySplitWs product_clean
  let base2 : ℚ :=
    if tw.isEmpty then base1
    else pyMax base1 (((tw.filter (fun w => pw.contains w)).length : ℚ) / (tw.length : ℚ) * 0.7)
  if is_accessory product_name then base2 * 0.3 else base2

/-- Embeds `ProductFilterEngine.is_relevant_product` (lines 158–169). -/
def is_relevant_product (sim : String → String → ℚ)
    (product_name target_name : String)
    (min_score : ℚ) (allow_accessories : Bool) : Bool :=
  if !allow_accessories && is_accessory product_name then false
  else decide (calculate_relevance_score sim product_name target_name ≥ min_score)

/-- Alias table `EnhancedNaturalLanguageParser.product_aliases`
(src/price_tracker.py lines 203–210), flattened to (standard, alias)
pairs in the iteration order of the source's nested loops (dict
insertion order, then list order). -/
def product_alias_pairs : List (String × String) :=
  [("iphone", "蘋果手機"), ("iphone", "愛鳳"), ("iphone", "i鳳"), ("iphone", "蘋果機"),
   ("airpods", "蘋果耳機"), ("airpods", "無線耳機"), ("airpods", "airpod"),
   ("ps5", "PlayStation 5"), ("ps5", "playstation5"), ("ps5", "ps5主機"), ("ps5", "遊戲機"),
   ("switch", "任天堂"), ("switch", "nintendo switch"), ("switch", "ns"),
   ("macbook", "蘋果筆電"), ("macbook", "mac筆電"), ("macbook", "macbook pro"), ("macbook", "macbook air"),
   ("viper", "viper v3"), ("viper", "viper v2"), ("viper", "viper v3pro"), ("viper", "viper v2pro")]

/-- Alias-replacement loop of `normalize_product_name` (lines 216-220):
for each (standard, alias) pair in table order, replace every occurrence
of the alias (checked verbatim against the lowercased text, exactly as
in the source — so the mixed-case alias `"PlayStation 5"` can never
match). -/
def apply_product_aliases (t : String) : String :=
  product_alias_pairs.foldl
    (fun text p => if pyContains p.2 text then pyReplace text p.2 p.1 else text) t

/-- Embeds `EnhancedNaturalLanguageParser.normalize_product_name`
(lines 212-222): lowercase, alias replacement, strip. -/
def normalize_product_name (s : String) : String :=
  pyStrip (apply_product_aliases (pyLower s))

/-- Single-character entries of
`EnhancedNaturalLanguageParser.number_mapping` (lines 195–200), as
consulted by the per-character loops of `chinese_to_number`. -/
def number_mapping_char (c : Char) : Option Nat :=
  if c = '一' then some 1 else if c = '二' then some 2 else if c = '三' then some 3
  else if c = '四' then some 4 else if c = '五' then some 5 else if c = '六' then some 6
  else if c = '七' then some 7 else if c = '八' then some 8 else if c = '九' then some 9
  else if c = '十' then some 10 else if c = '百' then some 100 else if c = '千' then some 1000
  else if c = '萬' then some 10000 else if c = '兩' then some 2 else if c = '倆' then some 2
  else if c = '幾' then some 5 else if c = '多' then some 0 else none

/-- Whole-string lookup `self.number_mapping.get(left)` as used for the
left part of the thousand branch of `chinese_to_number`; this is the
one place the two-character key `'十萬'` of the table is reachable. -/
def number_mapping_str (l : List Char) : Option Nat :=
  match l with
  | [c] => number_mapping_char c
  | ['十', '萬'] => some 100000
  | _ => none

/-- Per-character accumulation step of `chinese_to_number`'s loops WITH
the magnitude special case (lines 271–284): magnitude characters
multiply `max 1 acc`, other mapped characters extend the decimal
accumulator, unmapped characters are skipped. -/
def charStepMag (acc : Nat) (c : Char) : Nat :=
  match number_mapping_char c with
  | none => acc
  | some v => if c = '十' ∨ c = '百' ∨ c = '千' then max 1 acc * v else acc * 10 + v

/-- Per-character accumulation step of the right part of the thousand
branch (lines 296–299), which has NO magnitude special case. -/
def charStepNoMag (acc : Nat) (c : Char) : Nat :=
  match number_mapping_char c with
  | none => acc
  | some v => acc * 10 + v

/-- Embeds `EnhancedNaturalLanguageParser.chinese_to_number`
(lines 255–303).  The returned float is always a whole number; it is
modelled as `(result : ℚ)`. -/
def chinese_to_number (s : String) : Option ℚ :=
  if s.data.isEmpty then none
  else
    let result : Nat :=
      if '萬' ∈ s.data then
        match splitCharL '萬' s.data with
        | [left, right] =>
          let rightL := if right.isEmpty then ['0'] else right
          (left.foldl charStepMag 0) * 10000 + rightL.foldl charStepMag 0
        | _ => 0
      else if '千' ∈ s.data then
        match splitCharL '千' s.data with
        | [left, right] =>
          let leftL := if left.isEmpty then ['一'] else left
          let rightL := if right.isEmpty then ['0'] else right
          let left_num := if leftL = ['十'] then 10 else (number_mapping_str leftL).getD 1
          left_num * 1000 + rightL.foldl charStepNoMag 0
        | _ => 0
      else 0
    if result > 0 then some (result : ℚ) else none

/-- Character class `[0-9,]` of the source's amount patterns. -/
def isDigitComma (c : Char) : Bool :=
  c.isDigit || c = ','

/-- Fuelled scanner for `re.findall(r'[0-9,]+', text)`: the maximal runs
of digits and commas, left to right. -/
def arabicRunsF : Nat → List Char → List (List Char)
  | 0, _ => []
  | _ + 1, [] => []
  | n + 1, c :: rest =>
    if isDigitComma c then
      (c :: rest.takeWhile isDigitComma) :: arabicRunsF n (rest.dropWhile isDigitComma)
    else arabicRunsF n rest

/-- Character class `[一二三四五六七八九十百千萬]` of the first
native-numeral pattern (line 238). -/
def isCjkNumChar (c : Char) : Bool :=
  ['一', '二', '三', '四', '五', '六', '七', '八', '九', '十', '百', '千', '萬'].contains c

/-- Fuelled scanner for
`re.findall(r'([一二三四五六七八九十百千萬]+)', text)`. -/
def cjkRunsF : Nat → List Char → List (List Char)
  | 0, _ => []
  | _ + 1, [] => []
  | n + 1, c :: rest =>
    if isCjkNumChar c then
      (c :: rest.takeWhile isCjkNumChar) :: cjkRunsF n (rest.dropWhile isCjkNumChar)
    else cjkRunsF n rest

/-- Fuelled scanner for `re.findall(r'(幾[千萬])', text)` (non-overlapping
two-character matches). -/
def jiRunsF : Nat → List Char → List (List Char)
  | 0, _ => []
  | _ + 1, [] => []
  | n + 1, c :: rest =>
    if c = '幾' then
      match rest with
      | d :: t =>
        if d = '千' || d = '萬' then ['幾', d] :: jiRunsF n t
        else jiRunsF n rest
      | [] => []
    else jiRunsF n rest

/-- Fuelled scanner for `re.findall(r'([0-9]+[千萬])', text)`.  A digit
run not followed by a magnitude character cannot match from any start
position inside the run (every such attempt ends at the same non-digit
character), so the scanner may skip the whole run, which matches the
regex engine's behaviour. -/
def digitMagF : Nat → List Char → List (List Char)
  | 0, _ => []
  | _ + 1, [] => []
  | n + 1, c :: rest =>
    if c.isDigit then
      let run := c :: rest.takeWhile Char.isDigit
      let rest2 := rest.dropWhile Char.isDigit
      match rest2 with
      | d :: t =>
        if d = '千' || d = '萬' then (run ++ [d]) :: digitMagF n t
        else digitMagF n rest2
      | [] => []
    else digitMagF n rest

/-- Embeds `EnhancedNaturalLanguageParser.extract_numbers_from_text`
(lines 224–253): decimal runs first (`float` fails — and the value is
skipped — exactly when the run contains no digit), then conversions of
the three native-numeral pattern matches in source order
(`chinese_to_number` returns `none` instead of raising, and falsy/None
results are skipped). -/
def extract_numbers_from_text (text : String) : List ℚ :=
  let arabic := (arabicRunsF text.data.length text.data).filterMap (fun run =>
    let ds := run.filter Char.isDigit
    if ds.isEmpty then none else some ((natFromDigits ds : ℚ)))
  let m1 := (cjkRunsF text.data.length text.data).filterMap
    (fun run => chinese_to_number (String.mk run))
  let m2 := (jiRunsF text.data.length text.data).filterMap
    (fun run => chinese_to_number (String.mk run))
  let m3 := (digitMagF text.data.length text.data).filterMap
    (fun run => chinese_to_number (String.mk run))
  arabic ++ m1 ++ m2 ++ m3

/-- Keyword table `intent_patterns['price_query']` (lines 177–181). -/
def intent_price_query : List String :=
  ["多少錢", "價格", "查價", "比價", "查詢", "搜尋",
   "賣多少", "現在多少", "目前價格", "市價", "行情",
   "值多少", "要花多少", "成本", "售價"]

/-- Keyword table `intent_patterns['track_product']` (lines 182–186). -/
def intent_track_product : List String :=
  ["追蹤", "監控", "通知", "提醒", "關注", "盯著",
   "降價", "便宜", "打折", "特價", "優惠",
   "等", "等到", "到時候", "的話", "如果", "當"]

/-- Keyword table `intent_patterns['price_expressions']` (lines 187–191). -/
def intent_price_expressions : List String :=
  ["低於", "少於", "小於", "不超過", "以下", "以內",
   "便宜到", "降到", "跌到", "掉到", "下降到",
   "在.*以下", "不要超過", "最多", "頂多"]

/-- Embeds `EnhancedNaturalLanguageParser.contains_intent`
(lines 377–382): any keyword of the selected table occurs in the
lowercased message (unknown keys give the empty table, as
`dict.get(…, [])` does). -/
def contains_intent (message : String) (intent_type : String) : Bool :=
  let keywords :=
    if intent_type = "price_query" then intent_price_query
    else if intent_type = "track_product" then intent_track_product
    else if intent_type = "price_expressions" then intent_price_expressions
    else []
  let message_lower := pyLower message
  keywords.any (fun k => pyContains k message_lower)

/-- Alternatives of cleaning pattern 1 of `extract_product_name`
(line 388), in regex alternation order. -/
def cleaning_pattern_1 : List (List Char) :=
  ["請", "幫我", "給我", "我要", "想要", "想買", "想查", "查詢", "查看", "搜尋", "比價"].map String.data

/-- Alternatives of cleaning pattern 2 (line 389). -/
def cleaning_pattern_2 : List (List Char) :=
  ["價格", "多少錢", "賣多少", "值多少", "要多少"].map String.data

/-- Alternatives of cleaning pattern 3 (line 390). -/
def cleaning_pattern_3 : List (List Char) :=
  ["追蹤", "監控", "通知", "提醒", "關注"].map String.data

/-- Alternatives of cleaning pattern 4 (line 391). -/
def cleaning_pattern_4 : List (List Char) :=
  ["低於", "少於", "小於", "不超過", "以下", "以內"].map String.data

/-- Alternatives of cleaning pattern 5 (line 392). -/
def cleaning_pattern_5 : List (List Char) :=
  ["的", "之", "、", "，", "。", "！", "？"].map String.data

/-- Fuelled scanner for `re.sub` with a literal-alternation pattern and
replacement `' '`: at each position the alternatives are tried in
order (regex alternation is first-match, not longest-match); a match is
replaced by one space and scanning resumes after it.  The IGNORECASE
flag of the source is irrelevant: no alternative contains a cased
letter.  All alternatives are non-empty, so each step consumes at least
one character. -/
def subLitF (alts : List (List Char)) : Nat → List Char → List Char
  | 0, l => l
  | _ + 1, [] => []
  | n + 1, c :: rest =>
    match alts.find? (fun a => a.isPrefixOf (c :: rest)) with
    | some a => ' ' :: subLitF alts n (List.drop (a.length - 1) rest)
    | none => c :: subLitF alts n rest

/-- Fuelled scanner for `re.sub(r'([0-9,]+元?)', ' ', …)` (cleaning
pattern 6, line 393): a maximal greedy run of digits/commas plus an
optional trailing `'元'` is replaced by one space. -/
def subAmountF : Nat → List Char → List Char
  | 0, l => l
  | _ + 1, [] => []
  | n + 1, c :: rest =>
    if isDigitComma c then
      let rest2 := rest.dropWhile isDigitComma
      let rest3 :=
        match rest2 with
        | d :: t => if d = '元' then t else rest2
        | [] => rest2
      ' ' :: subAmountF n rest3
    else c :: subAmountF n rest

/-- Start-anchored removal `re.sub(r'^(請|幫我|給我|我要)', '', …)`: with
no MULTILINE flag the pattern can only match at position 0, so at most
one alternative (first in alternation order) is removed. -/
def subStart (alts : List (List Char)) (l : List Char) : List Char :=
  match alts.find? (fun a => a.isPrefixOf l) with
  | some a => l.drop a.length
  | none => l

/-- End-anchored removal `re.sub(r'(多少錢|價格)$', '', …)`: the pattern
can only match a suffix, and no alternative is a suffix of another, so
at most one trailing alternative is removed. -/
def subEnd (alts : List (List Char)) (l : List Char) : List Char :=
  match alts.find? (fun a => a.isSuffixOf l) with
  | some a => l.take (l.length - a.length)
  | none => l

/-- Alternatives of the first conservative pattern (line 407). -/
def conservative_pattern_1 : List (List Char) :=
  ["請", "幫我", "給我", "我要"].map String.data

/-- Alternatives of the second conservative pattern (line 408). -/
def conservative_pattern_2 : List (List Char) :=
  ["多少錢", "價格"].map String.data

/-- Embeds `EnhancedNaturalLanguageParser.extract_product_name`
(lines 384–419): ordered pattern removal, whitespace collapse, the
conservative retry when fewer than 3 characters remain, alias
normalisation, and the final ≥ 2 length check (`None` otherwise). -/
def extract_product_name (message : String) : Option String :=
  let c1 := subLitF cleaning_pattern_1 message.data.length message.data
  let c2 := subLitF cleaning_pattern_2 c1.length c1
  let c3 := subLitF cleaning_pattern_3 c2.length c2
  let c4 := subLitF cleaning_pattern_4 c3.length c3
  let c5 := subLitF cleaning_pattern_5 c4.length c4
  let c6 := subAmountF c5.length c5
  let collapsed := joinSpace (pySplitWs ⟨c6⟩)
  let cleaned :=
    if collapsed.data.length < 3 then
      let k1 := pyStrip ⟨subStart conservative_pattern_1 message.data⟩
      pyStrip ⟨subEnd conservative_pattern_2 k1.data⟩
    else collapsed
  let cleaned := if cleaned.data.isEmpty then cleaned else normalize_product_name cleaned
  if cleaned.data.length ≥ 2 then some cleaned else none

/-- Conversation context `ConversationContext` (lines 39–50); the
`conversation_history` list is never consulted by
`extract_intent_with_context` and is omitted. -/
structure ConversationContext where
  user_id : String
  last_product : Option String := none
  last_action : Option String := none
  last_price : Option ℚ := none
deriving DecidableEq

/-- Result dictionaries of `extract_intent_with_context` /
`fuzzy_intent_matching`, one constructor per `'action'` value, carrying
the keys the source attaches to each. -/
inductive ParsedIntent where
  | track_need_price (product_name : String) (confidence : ℚ) (context_used : Bool)
      (suggestion : Option String)
  | query_price (product_name : String) (confidence : ℚ)
  | track_product (product_name : String) (target_price : String) (confidence : ℚ)
      (track_mode : String)
  | user_settings (message : String) (confidence : ℚ)
  | list_trackers (confidence : ℚ)
  | show_help (confidence : ℚ)
  | unknown (confidence : ℚ) (suggestion : String)
deriving DecidableEq

/-- Python `str(int(x))` for the non-negative whole-number floats
produced by `extract_numbers_from_text`. -/
def intStr (q : ℚ) : String :=
  toString q.floor

/-- Embeds `EnhancedNaturalLanguageParser.fuzzy_intent_matching`
(lines 421–462); the `context` parameter of the source is unused there
and omitted here. -/
def fuzzy_intent_matching (message : String) : ParsedIntent :=
  let message_lower := pyLower message
  let potential := (["iphone", "ipad", "macbook", "airpods", "apple",
      "samsung", "xiaomi", "oppo", "vivo", "huawei",
      "ps5", "ps4", "xbox", "switch", "nintendo",
      "viper", "razer", "logitech", "corsair",
      "手機", "筆電", "電腦", "平板", "耳機", "滑鼠", "鍵盤"] : List String).filter
    (fun k => pyContains k message_lower)
  match potential with
  | p :: _ =>
    if ["便宜", "降", "低", "少", "打折"].any (fun w => pyContains w message_lower) then
      .track_need_price p 0.6 false (some ("看起來您想追蹤 " ++ p ++ "，請告訴我目標價格"))
    else if ["多少", "價格", "錢"].any (fun w => pyContains w message_lower) then
      .query_price p 0.6
    else .unknown 0 "我不太理解您的需求，可以說得更具體一些嗎？"
  | [] => .unknown 0 "我不太理解您的需求，可以說得更具體一些嗎？"

/-- Context-shortcut step of `extract_intent_with_context`
(lines 309–320): only for short messages with a context, an anaphoric
word, a remembered product and a tracking keyword; `none` means "fall
through to the keyword checks". -/
def contextShortcut (message : String) (context : Option ConversationContext) :
    Option ParsedIntent :=
  match context with
  | none => none
  | some ctx =>
    if message.data.length < 10 then
      if ["這個", "它", "那個", "同樣"].any (fun w => pyContains w message) then
        match ctx.last_product with
        | some lp =>
          if intent_track_product.any (fun w => pyContains w message) then
            some (.track_need_price lp 0.8 true none)
          else none
        | none => none
      else none
    else none

/-- Embeds `EnhancedNaturalLanguageParser.extract_intent_with_context`
(lines 305–375): strip, context shortcut, price-query check, tracking
check (with number extraction), settings / list / help keyword checks,
fuzzy fallback — first hit wins, and a check whose product-name
extraction fails falls through to the next. -/
def extract_intent_with_context (message0 : String)
    (context : Option ConversationContext) : ParsedIntent :=
  let message := pyStrip message0
  match contextShortcut message context with
  | some i => i
  | none =>
    let step2 : Option ParsedIntent :=
      if contains_intent message "price_query" then
        (extract_product_name message).map (fun pn => .query_price pn 0.9)
      else none
    match step2 with
    | some i => i
    | none =>
      let step3 : Option ParsedIntent :=
        if contains_intent message "track_product" then
          match extract_product_name message, extract_numbers_from_text message with
          | some pn, p :: _ => some (.track_product pn (intStr p) 0.95 "below_price")
          | some pn, [] => some (.track_need_price pn 0.8 false none)
          | none, _ => none
        else none
      match step3 with
      | some i => i
      | none =>
        if ["設定", "偏好", "配件", "過濾"].any (fun k => pyContains k message) then
          .user_settings message 0.8
        else if ["清單", "列表", "我的追蹤"].any (fun k => pyContains k message) then
          .list_trackers 0.9
        else if ["說明", "幫助", "help", "使用方法"].any (fun k => pyContains k message) then
          .show_help 0.9
        else fuzzy_intent_matching message

/-- Data model `PriceTracker` (src/price_tracker.py lines 25–37);
timestamps are abstract ticks (`Nat`), prices are `ℚ`. -/
structure PriceTracker where
  user_id : String
  product_name : String
  target_price : ℚ
  platforms : List String
  created_at : Nat
  last_checked : Option Nat := none
  last_price : Option ℚ := none
  is_active : Bool := true
  track_mode : String := "below_price"
  tracker_id : Option String := none
deriving DecidableEq

/-- Embeds `DatabaseManager.update_tracker_price` (lines 692–707) as a
transformation of the stored tracker rows.  The method's body only
issues an UPDATE inside the `database_type == "postgresql"` branch, and
that statement uses `?` qmark placeholders, which psycopg2 (format
paramstyle) rejects with a ProgrammingError; the surrounding
`except` clause catches and logs it, leaving the table unchanged.
There is no sqlite branch at all — the orphaned fragment of the
intended `else: cursor.execute("UPDATE …")` appears, detached, at the
very end of the file (lines 1338–1345) — so for the default sqlite
configuration nothing but `commit()` runs.  On every database type the
rows are therefore returned unchanged. -/
def update_tracker_price (database_type : String) (rows : List PriceTracker)
    (tracker_id : String) (current_price : ℚ) : List PriceTracker :=
  if database_type = "postgresql" then
    rows
  else
    rows

/-- Search-result item as produced by the source adapters and the
relevance filter (`name`, `price`, `link`, `platform`, plus the
`relevance_score` attached by `filter_relevant_products`). -/
structure SearchItem where
  name : String
  price : Nat
  link : String
  platform : String
  relevance_score : ℚ := 0
deriving DecidableEq

instance : Inhabited SearchItem :=
  ⟨{ name := "", price := 0, link := "", platform := "" }⟩

/-- Ascending-price comparison used by the merge step's
`all_prices.sort(key=lambda x: x['price'])`. -/
def lePrice (a b : SearchItem) : Prop :=
  a.price ≤ b.price

instance : DecidableRel lePrice :=
  fun a b => Nat.decLe a.price b.price

instance : IsTotal SearchItem lePrice :=
  ⟨fun a b => Nat.le_total a.price b.price⟩

instance : IsTrans SearchItem lePrice :=
  ⟨fun _ _ _ h1 h2 => Nat.le_trans h1 h2⟩

/-- Aggregate result dictionary of
`ImprovedPriceSearchAgent.search_comprehensive_prices` /
`_create_empty_result`.  The per-source breakdown keeps (source name,
surviving items); the breakdown's `url`/`count` fields and the
thousands-separator formatting inside the summary strings are
simplified away — no claim inspects them. -/
structure AggregateResult where
  product_name : String
  cheapest_item : Option SearchItem
  min_price : Nat
  max_price : Nat
  avg_price : ℚ
  total_results : Nat
  all_results : List SearchItem
  search_results : List (String × List SearchItem)
  summary : String
  filter_info : String
deriving DecidableEq

/-- Embeds `ImprovedPriceSearchAgent._create_empty_result`
(lines 988–1000). -/
def create_empty_result (product_name : String) : AggregateResult :=
  { product_name := product_name
    cheapest_item := none
    min_price := 0
    max_price := 0
    avg_price := 0
    total_results := 0
    all_results := []
    search_results := []
    summary := "未找到 " ++ product_name ++ " 的相關主商品"
    filter_info := "建議檢查商品名稱拼寫或嘗試更通用的關鍵字" }

/-- Item-collection step of the per-source loop, ignoring the
breakdown (a raising source is caught, logged and skipped). -/
def itemStep (acc : List SearchItem) (src : String × Except Unit (List SearchItem)) :
    List SearchItem :=
  match src.2 with
  | .error _ => acc
  | .ok ps => acc ++ ps

/-- Concatenation, in source order, of the item lists of the
non-raising sources. -/
def surviving_items (sources : List (String × Except Unit (List SearchItem))) :
    List SearchItem :=
  sources.foldl itemStep []

/-- Loop body of `search_comprehensive_prices` (lines 950-967): a
raising source is caught and skipped, a source returning items extends
the merged list and the per-source breakdown. -/
def sourceStep (acc : List SearchItem × List (String × List SearchItem))
    (src : String × Except Unit (List SearchItem)) :
    List SearchItem × List (String × List SearchItem) :=
  match src.2 with
  | .error _ => acc
  | .ok prices =>
    if prices.isEmpty then acc else (acc.1 ++ prices, acc.2 ++ [(src.1, prices)])

/-- Embeds `ImprovedPriceSearchAgent.search_comprehensive_prices`
(lines 938–986).  Each source is a (name, outcome) pair whose outcome
is either the filtered item list the source function returned or
`.error ()` standing for an exception it raised; the `try/except` of
the per-source loop turns the latter into "log and continue".  The
merge sorts ascending by price — Python's stable `list.sort` and the
stable `List.insertionSort` agree on equal keys — and takes the head,
min/max/avg and the first 20 entries. -/
def search_comprehensive_prices
    (sources : List (String × Except Unit (List SearchItem)))
    (product_name : String) : AggregateResult :=
  let folded := sources.foldl sourceStep ([], [])
  let all_prices := folded.1
  if all_prices.isEmpty then create_empty_result product_name
  else
    let sorted := List.insertionSort lePrice all_prices
    let cheapest := sorted.headI
    { product_name := product_name
      cheapest_item := some cheapest
      min_price := cheapest.price
      max_price := (all_prices.map SearchItem.price).foldr max 0
      avg_price := ((all_prices.map SearchItem.price).sum : ℚ) / (all_prices.length : ℚ)
      total_results := all_prices.length
      all_results := sorted.take 20
      search_results := folded.2
      summary := "過濾後找到 " ++ toString all_prices.length ++
        " 個相關商品，最低價 NT$" ++ toString cheapest.price
      filter_info := "已自動過濾配件和不相關商品" }

/-- The intent dictionary as consumed by
`ContextAwarePriceTracker.handle_track_product` (keys `action`,
`product_name`, `target_price`, `track_mode`). -/
structure TrackRequest where
  action : String
  product_name : String
  target_price : String
  track_mode : String := "below_price"
deriving DecidableEq

/-- Reply of the need-price branch (lines 1113–1119). -/
def need_price_msg : String :=
  "請告訴我您想追蹤的目標價格\n\n範例格式：\n• iPhone 15 低於 25000 元時通知我\n• 當 PS5 價格少於 12000 就提醒我\n\n系統會自動過濾配件，只追蹤主商品價格！"

/-- Reply of the `except ValueError` branch (line 1218). -/
def invalid_price_msg : String :=
  "價格格式錯誤，請輸入有效的數字金額"

/-- Reply of the `except Exception` branch (line 1221). -/
def generic_track_error_msg : String :=
  "設定商品追蹤時發生錯誤，請稍後再試"

/-- Update-path reply prefix (lines 1161–1164); numeric formatting is
simplified (no thousands separators). -/
def update_success_msg (product_name : String) (old_price new_price : ℚ) : String :=
  "追蹤設定已更新！\n\n商品：" ++ product_name ++
    "\n價格調整：NT$" ++ toString old_price ++ " → NT$" ++ toString new_price ++
    "\n追蹤模式：低於目標價格時通知\n\n"

/-- Create-path reply prefix (lines 1181–1184). -/
def create_success_msg (product_name : String) (target_price : ℚ) : String :=
  "追蹤設定成功！\n\n商品：" ++ product_name ++
    "\n目標價格：NT$" ++ toString target_price ++
    " 以下\n通知模式：低於目標價格時立即通知\n\n"

/-- Immediate-search analysis appended to the reply (lines 1197–1211),
simplified numeric formatting. -/
def price_analysis_msg (current_price target_price : ℚ) (cheapest : SearchItem) : String :=
  if current_price ≤ target_price then
    "好消息！已找到符合條件的商品：\n當前最低價：NT$" ++ toString current_price ++
      "\n節省金額：NT$" ++ toString (target_price - current_price) ++
      "\n最佳平台：" ++ cheapest.platform ++
      "\n立即購買：" ++ cheapest.link ++ "\n\n限時優惠，建議立即下單！"
  else
    "當前價格分析：\n目前最低價：NT$" ++ toString current_price ++
      "\n距離目標：NT$" ++ toString (current_price - target_price) ++
      "\n\n持續監控中，降價時立即通知您！"

/-- Reply suffix when the immediate search found nothing (line 1213). -/
def collecting_msg : String :=
  "追蹤已啟動，正在收集價格資訊..."

/-- Case-insensitive product-name match of the duplicate-tracker lookup
(line 1131): `tracker.product_name.lower() == product_name.lower()`. -/
def tracker_name_matches (product_name : String) (t : PriceTracker) : Bool :=
  pyLower t.product_name == pyLower product_name

/-- Update of the first tracker satisfying `p` — Python mutates the
first matching object of the user's list and leaves the rest alone. -/
def updateFirstMatching (p : PriceTracker → Bool) (f : PriceTracker → PriceTracker) :
    List PriceTracker → List PriceTracker
  | [] => []
  | t :: ts => if p t then f t :: ts else t :: updateFirstMatching p f ts

/-- Embeds `ContextAwarePriceTracker.handle_track_product`
(lines 1109–1221) as a transformation of the user's in-memory tracker
list `self.user_trackers[user_id]` (the only state the method reads for
its decisions; database writes mirror the in-memory updates and their
local failures are caught and logged without changing control flow).

External effects are oracles:
* `floatParse` models the builtin `float(...)` — `none` is the
  `ValueError` the `except ValueError` branch catches;
* `search` models the `search_comprehensive_prices` call — `.error ()`
  is an exception reaching the orchestrator's `except Exception`
  branch, `.ok none` a result with no cheapest item, and
  `.ok (some (minPrice, cheapest))` a result with one;
* `save_throws` models `DatabaseManager.save_tracker` re-raising a
  storage error (only reachable on the create path when a database is
  configured), which the `except Exception` branch converts to the
  generic retry message before the new tracker is appended;
* `now` is `datetime.now()`, `new_id` the id assigned by `save_tracker`.

The function is total: every Python exception path is an explicit
branch, so the embedded handler never "raises". -/
def handle_track_product
    (floatParse : String → Option ℚ)
    (search : Except Unit (Option (ℚ × SearchItem)))
    (use_db save_throws : Bool) (now : Nat) (new_id : String)
    (user_id : String) (intent : TrackRequest)
    (trackers : List PriceTracker) : List PriceTracker × String :=
  if intent.action = "track_product_need_price" then (trackers, need_price_msg)
  else
    match floatParse intent.target_price with
    | none => (trackers, invalid_price_msg)
    | some target_price =>
      let pred := tracker_name_matches intent.product_name
      match trackers.find? pred with
      | some existing =>
        let ts1 := updateFirstMatching pred
          (fun t => { t with target_price := target_price, is_active := true, created_at := now })
          trackers
        let base := update_success_msg intent.product_name existing.target_price target_price
        match search with
        | .error _ => (ts1, generic_track_error_msg)
        | .ok none => (ts1, base ++ collecting_msg)
        | .ok (some (current_price, cheapest)) =>
          let ts2 := updateFirstMatching pred
            (fun t => { t with last_price := some current_price, last_checked := some now })
            ts1
          (ts2, base ++ price_analysis_msg current_price target_price cheapest)
      | none =>
        if use_db && save_throws then (trackers, generic_track_error_msg)
        else
          let newT : PriceTracker :=
            { user_id := user_id
              product_name := intent.product_name
              target_price := target_price
              platforms := ["all"]
              created_at := now
              track_mode := intent.track_mode
              tracker_id := if use_db then some new_id else none }
          let base := create_success_msg intent.product_name target_price
          match search with
          | .error _ => (trackers ++ [newT], generic_track_error_msg)
          | .ok none => (trackers ++ [newT], base ++ collecting_msg)
          | .ok (some (current_price, cheapest)) =>
            (trackers ++
                [{ newT with last_price := some current_price, last_checked := some now }],
              base ++ price_analysis_msg current_price target_price cheapest)

/-- One tracking request with all its oracles, for reasoning about
sequences of `handle_track_product` calls. -/
structure TrackCall where
  floatParse : String → Option ℚ
  search : Except Unit (Option (ℚ × SearchItem))
  use_db : Bool
  save_throws : Bool
  now : Nat
  new_id : String
  user_id : String
  intent : TrackRequest

/-- State reached after a sequence of `handle_track_product` calls. -/
def apply_track_calls (calls : List TrackCall) (trackers : List PriceTracker) :
    List PriceTracker :=
  calls.foldl
    (fun ts c =>
      (handle_track_product c.floatParse c.search c.use_db c.save_throws c.now c.new_id
          c.user_id c.intent ts).1)
    trackers

/-- Lowercased product name of a tracker, the key of the
at-most-one-active-tracker invariant. -/
def tracker_key (t : PriceTracker) : String :=
  pyLower t.product_name

/-- Number of active trackers for product key `n` (lowercased name). -/
def countActiveTrackers (n : String) (ts : List PriceTracker) : Nat :=
  (ts.filter (fun t => t.is_active && (tracker_key t == n))).length

/-- The single-character digit words (with their values) usable as
multiplier or remainder digits in composite native-numeral
expressions: 一…九 and the colloquial 兩. -/
def chineseDigits : List (Char × Nat) :=
  [('一', 1), ('二', 2), ('三', 3), ('四', 4), ('五', 5),
   ('六', 6), ('七', 7), ('八', 8), ('九', 9), ('兩', 2)]

/-- Value of a digit word of `chineseDigits`. -/
def chineseDigitValue (d : Char) : Nat :=
  (chineseDigits.lookup d).getD 0

/-- Remainder suffix of a ten-thousand expression: elided, a bare digit
word, or a thousands part `[d]千` with optional multiplier digit. -/
inductive WanRemainder where
  | empty
  | digit (d : Char)
  | thousands (d : Option Char)
deriving DecidableEq

/-- Characters the remainder suffix is written with. -/
def wanRemChars : WanRemainder → List Char
  | .empty => []
  | .digit d => [d]
  | .thousands none => ['千']
  | .thousands (some d) => [d, '千']

/-- Integer value the remainder suffix encodes (an elided thousands
multiplier counts as 1, per the specification). -/
def wanRemValue : WanRemainder → Nat
  | .empty => 0
  | .digit d => chineseDigitValue d
  | .thousands none => 1000
  | .thousands (some d) => chineseDigitValue d * 1000

/-- Well-formedness of a remainder suffix: its digit words are digit
words. -/
def wanRemValid : WanRemainder → Prop
  | .empty => True
  | .digit d => ∃ v, (d, v) ∈ chineseDigits
  | .thousands none => True
  | .thousands (some d) => ∃ v, (d, v) ∈ chineseDigits

/-- The lowercase basic Latin letters. -/
def lowerAsciiChars : List Char :=
  ['a', 'b', 'c', 'd', 'e', 'f', 'g', 'h', 'i', 'j', 'k', 'l', 'm',
   'n', 'o', 'p', 'q', 'r', 's', 't', 'u', 'v', 'w', 'x', 'y', 'z']

/-- A character list is `lowerFixed` when Python's `lower` leaves every
character unchanged. -/
@[reducible] def lowerFixed (l : List Char) : Prop :=
  ∀ c ∈ l, pyCharLower c = c

/-- C2: for every candidate, target and minimum score: an accessory
candidate with accessories disallowed is rejected outright, regardless
of the similarity function and hence of any relevance score; in every
other configuration `is_relevant_product` answers true exactly when the
relevance score reaches the minimum. -/
theorem C2_accessory_gate (sim : String → String → ℚ)
    (candidate target : String) (min_score : ℚ) (allow_accessories : Bool) :
    (is_accessory candidate = true → allow_accessories = false →
      is_relevant_product sim candidate target min_score allow_accessories = false) ∧
    (¬(is_accessory candidate = true ∧ allow_accessories = false) →
      (is_relevant_product sim candidate target min_score allow_accessories = true ↔
        calculate_relevance_score sim candidate target ≥ min_score)) := by
  constructor
  · intro ha hallow
    subst hallow
    simp [is_relevant_product, ha]
  · intro h
    have hcond : (!allow_accessories && is_accessory candidate) = false := by
      cases hb : is_accessory candidate <;> cases hc : allow_accessories <;> simp_all
    simp [is_relevant_product, hcond]

/-- Witness for C2 at concrete inputs: a phone case is rejected even
under a similarity function that always answers 1, and for a
non-accessory pair the answer is the threshold comparison. -/
theorem C2_accessory_gate_witness :
    is_relevant_product (fun _ _ => 1) "iphone 15 保護殼" "iphone 15" 0 false = false ∧
    (is_relevant_product (fun _ _ => 1) "iphone 15" "iphone 15" 0.65 false = true ↔
      calculate_relevance_score (fun _ _ => 1) "iphone 15" "iphone 15" ≥ 0.65) :=
  ⟨(C2_accessory_gate (fun _ _ => 1) "iphone 15 保護殼" "iphone 15" 0 false).1
      (by decide) rfl,
    (C2_accessory_gate (fun _ _ => 1) "iphone 15" "iphone 15" 0.65 false).2
      (by decide)⟩

/-- C9 (amended): whenever `has_brand_conflict` holds — i.e. the FIRST
brand-family key (in table order) contained in the target selects a
family one of whose competing keywords occurs in the candidate —
`calculate_relevance_score` returns exactly 0.1 times (hence at most
0.1 times) the pre-penalty score, for every similarity function. -/
theorem C9_brand_conflict_penalty (sim : String → String → ℚ)
    (candidate target : String)
    (h : has_brand_conflict candidate target = true) :
    calculate_relevance_score sim candidate target =
      0.1 * calculate_relevance_score_pre_brand sim candidate target := by
  simp only [calculate_relevance_score, calculate_relevance_score_pre_brand, h, if_true]
  ring

/-- Witness for C9 at a concrete conflicting pair ("samsung galaxy s24"
against target "iphone 15"). -/
theorem C9_brand_conflict_penalty_witness :
    calculate_relevance_score (fun _ _ => 0) "samsung galaxy s24" "iphone 15" =
      0.1 * calculate_relevance_score_pre_brand (fun _ _ => 0) "samsung galaxy s24" "iphone 15" :=
  C9_brand_conflict_penalty (fun _ _ => 0) "samsung galaxy s24" "iphone 15" (by decide)

/-- Counterexample to C9 as stated: the target "iphone ps5" contains
the registered key "ps5", and the candidate "iphone ps5 xbox" contains
"xbox", a conflicting keyword of the ps5 family — yet no penalty is
applied, because `has_brand_conflict` only consults the FIRST key found
in the target ("iphone", whose family does not list "xbox").  Both
names put the score on the literal-substring branch (base 0.8), so the
score does not depend on the similarity function; the claimed bound
0.1 × pre-penalty fails: 0.8 > 0.08. -/
theorem C9_counterexample :
    pyContains "ps5" (pyLower "iphone ps5") = true ∧
    ("ps5", ["xbox", "switch", "nintendo", "pc"]) ∈ brand_exclusions ∧
    pyContains "xbox" (pyLower "iphone ps5 xbox") = true ∧
    has_brand_conflict "iphone ps5 xbox" "iphone ps5" = false ∧
    calculate_relevance_score (fun _ _ => 0) "iphone ps5 xbox" "iphone ps5" = 0.8 ∧
    calculate_relevance_score_pre_brand (fun _ _ => 0) "iphone ps5 xbox" "iphone ps5" = 0.8 ∧
    ¬((0.8 : ℚ) ≤ 0.1 * 0.8) := by
  have h1 : pyContains (clean_name "iphone ps5") (clean_name "iphone ps5 xbox") = true := by
    decide
  have h2 : is_accessory "iphone ps5 xbox" = false := by decide
  have h3 : has_brand_conflict "iphone ps5 xbox" "iphone ps5" = false := by decide
  have h4 : ((pySplitWs (clean_name "iphone ps5")).eraseDups).isEmpty = false := by decide
  have h5 : ((pySplitWs (clean_name "iphone ps5")).eraseDups).length = 2 := by decide
  have h6 : (List.filter (fun w => (pySplitWs (clean_name "iphone ps5 xbox")).contains w)
      ((pySplitWs (clean_name "iphone ps5")).eraseDups)).length = 2 := by decide
  refine ⟨by decide, by decide, by decide, h3, ?_, ?_, by norm_num⟩
  · simp only [calculate_relevance_score, h1, h2, h3, h4, h5, h6]
    norm_num [pyMax]
  · simp only [calculate_relevance_score_pre_brand, h1, h2, h4, h5, h6]
    norm_num [pyMax]

/-- C7: a raising source is caught and skipped, so with one of two
sources raising and the other returning `l`, the aggregate search is
exactly the aggregate search over the surviving source alone (in
particular it returns normally, with the surviving source's results),
in either order. -/
theorem C7_partial_failure (name1 name2 : String)
    (l : List SearchItem) (pname : String) :
    search_comprehensive_prices [(name1, .error ()), (name2, .ok l)] pname =
      search_comprehensive_prices [(name2, .ok l)] pname ∧
    search_comprehensive_prices [(name2, .ok l), (name1, .error ())] pname =
      search_comprehensive_prices [(name2, .ok l)] pname :=
  ⟨rfl, rfl⟩

/-- C4 (code bug): `update_tracker_price` changes nothing, on any
database type — contrary to the claim that it sets the tracker's
`last_price` and `last_checked`.  The sqlite branch is missing
entirely, and the postgresql branch's qmark placeholders make psycopg2
raise, which the method catches and logs. -/
theorem C4_update_tracker_price_noop (database_type : String)
    (rows : List PriceTracker) (tracker_id : String) (current_price : ℚ) :
    update_tracker_price database_type rows tracker_id current_price = rows := by
  unfold update_tracker_price
  split <;> rfl

/-- C5: for a tracking request (not the need-price prompt): a malformed
numeric target (the `float` call fails) yields the user-facing
invalid-price message with the tracker state unchanged; a storage
exception from `save_tracker` on the create path yields the generic
retry-later message with the state unchanged; and an exception raised
by the aggregator is converted to the generic retry-later message.
The embedded handler is a total function — every exception path of the
source is one of its explicit branches, so nothing propagates to the
caller. -/
theorem C5_error_handling
    (floatParse : String → Option ℚ) (search : Except Unit (Option (ℚ × SearchItem)))
    (use_db save_throws : Bool) (now : Nat) (new_id : String) (user_id : String)
    (intent : TrackRequest) (trackers : List PriceTracker)
    (hact : intent.action ≠ "track_product_need_price") :
    (floatParse intent.target_price = none →
      handle_track_product floatParse search use_db save_throws now new_id user_id intent
          trackers = (trackers, invalid_price_msg)) ∧
    (∀ p, floatParse intent.target_price = some p →
      trackers.find? (tracker_name_matches intent.product_name) = none →
      use_db = true → save_throws = true →
      handle_track_product floatParse search use_db save_throws now new_id user_id intent
          trackers = (trackers, generic_track_error_msg)) ∧
    (∀ p, floatParse intent.target_price = some p →
      search = .error () → save_throws = false →
      (handle_track_product floatParse search use_db save_throws now new_id user_id intent
          trackers).2 = generic_track_error_msg) := by
  refine ⟨?_, ?_, ?_⟩
  · intro hfp
    simp [handle_track_product, hact, hfp]
  · intro p hfp hfind hdb hst
    subst hdb; subst hst
    simp [handle_track_product, hact, hfp, hfind]
  · intro p hfp hs hst
    subst hs; subst hst
    rcases hfind : trackers.find? (tracker_name_matches intent.product_name) with _ | t
    · simp [handle_track_product, hact, hfp, hfind]
    · simp [handle_track_product, hact, hfp, hfind]

/-- Witness for C5 at concrete inputs: a parser that only accepts
"25000" rejects "abc" (state `[]` unchanged, invalid-price reply); a
throwing store on the create path gives the generic reply with the
state unchanged; a raising aggregator gives the generic reply. -/
theorem C5_error_handling_witness :
    handle_track_product (fun s => if s == "25000" then some 25000 else none)
        (.ok none) false false 0 "1" "user1"
        { action := "track_product", product_name := "iphone 15", target_price := "abc" }
        [] = ([], invalid_price_msg) ∧
    handle_track_product (fun s => if s == "25000" then some 25000 else none)
        (.ok none) true true 0 "1" "user1"
        { action := "track_product", product_name := "iphone 15", target_price := "25000" }
        [] = ([], generic_track_error_msg) ∧
    (handle_track_product (fun s => if s == "25000" then some 25000 else none)
        (.error ()) false false 0 "1" "user1"
        { action := "track_product", product_name := "iphone 15", target_price := "25000" }
        []).2 = generic_track_error_msg := by
  refine ⟨?_, ?_, ?_⟩
  · exact (C5_error_handling _ _ false false 0 "1" "user1" _ [] (by decide)).1 rfl
  · exact (C5_error_handling _ _ true true 0 "1" "user1" _ [] (by decide)).2.1 25000 rfl rfl
      rfl rfl
  · exact (C5_error_handling _ _ false false 0 "1" "user1" _ [] (by decide)).2.2 25000 rfl
      rfl rfl

/-- C8 (amended): the message "iPhone 15 多少錢" hits the price-query
keyword check (it contains "多少錢"), and name extraction — after the
ordered pattern removal, whose amount pattern `[0-9,]+元?` strips the
numeric token "15", and whitespace collapse — yields "iphone", so the
classifier emits a price-query intent for "iphone" with confidence
0.9.  (The digits are removed by design; the extracted name is
"iphone", not "iphone 15".) -/
theorem C8_price_query_intent :
    extract_intent_with_context "iPhone 15 多少錢" none =
      ParsedIntent.query_price "iphone" 0.9 := by
  rfl

/-- Counterexample to C8 as stated: the name extracted from
"iPhone 15 多少錢" is "iphone" — the amount pattern `[0-9,]+元?` of
`extract_product_name` removes the "15" — not "iphone 15". -/
theorem C8_counterexample :
    extract_product_name "iPhone 15 多少錢" = some "iphone" ∧
    some "iphone" ≠ some "iphone 15" := by
  exact ⟨by decide, by decide⟩

theorem digit_mapping {d : Char} {v : Nat} (h : (d, v) ∈ chineseDigits) :
    number_mapping_char d = some v := by
  fin_cases h <;> rfl

theorem digit_not_special {d : Char} {v : Nat} (h : (d, v) ∈ chineseDigits) :
    d ≠ '萬' ∧ d ≠ '千' ∧ d ≠ '十' ∧ d ≠ '百' := by
  fin_cases h <;> exact ⟨by decide, by decide, by decide, by decide⟩

theorem digit_pos {d : Char} {v : Nat} (h : (d, v) ∈ chineseDigits) : 1 ≤ v := by
  fin_cases h <;> decide

theorem digit_value {d : Char} {v : Nat} (h : (d, v) ∈ chineseDigits) :
    chineseDigitValue d = v := by
  fin_cases h <;> rfl

theorem splitCharL_ne_nil (sep : Char) : ∀ l : List Char, splitCharL sep l ≠ []
  | [] => by simp [splitCharL]
  | c :: rest => by
    simp only [splitCharL]
    split
    · simp
    · split <;> simp

theorem splitCharL_not_mem (sep : Char) (l : List Char) (h : sep ∉ l) :
    splitCharL sep l = [l] := by
  induction l with
  | nil => rfl
  | cons c rest ih =>
    have hc : c ≠ sep := fun e => h (by simp [e])
    have hr : sep ∉ rest := fun m => h (List.mem_cons_of_mem _ m)
    rw [splitCharL, ih hr]
    simp [hc]

theorem splitCharL_append (sep : Char) (xs ys : List Char) (hxs : sep ∉ xs) :
    splitCharL sep (xs ++ sep :: ys) = xs :: splitCharL sep ys := by
  induction xs with
  | nil =>
    rw [List.nil_append, splitCharL]
    rcases h : splitCharL sep ys with _ | ⟨a, t⟩
    · exact absurd h (splitCharL_ne_nil sep ys)
    · simp
  | cons x xs ih =>
    have hx : x ≠ sep := fun e => hxs (by simp [e])
    have hxs' : sep ∉ xs := fun m => hxs (List.mem_cons_of_mem _ m)
    rw [List.cons_append, splitCharL, ih hxs']
    simp [hx]

theorem charStepMag_digit {d : Char} {v : Nat} (hd : (d, v) ∈ chineseDigits) (acc : Nat) :
    charStepMag acc d = acc * 10 + v := by
  obtain ⟨-, h2, h3, h4⟩ := digit_not_special hd
  unfold charStepMag
  rw [digit_mapping hd]
  simp [h2, h3, h4]

theorem charStepNoMag_digit {d : Char} {v : Nat} (hd : (d, v) ∈ chineseDigits) (acc : Nat) :
    charStepNoMag acc d = acc * 10 + v := by
  unfold charStepNoMag
  rw [digit_mapping hd]

/-- Evaluation of the ten-thousand branch of `chinese_to_number` on an
input with exactly one '萬'. -/
theorem chinese_to_number_wan_split (left right : List Char)
    (hl : '萬' ∉ left) (hr : '萬' ∉ right) :
    chinese_to_number ⟨left ++ '萬' :: right⟩ =
      (let rightL := if right.isEmpty then ['0'] else right
       let result := (left.foldl charStepMag 0) * 10000 + rightL.foldl charStepMag 0
       if result > 0 then some ((result : Nat) : ℚ) else none) := by
  have hne : (left ++ '萬' :: right).isEmpty = false := by
    cases left <;> simp
  have hmem : '萬' ∈ left ++ '萬' :: right := by simp
  unfold chinese_to_number
  rw [splitCharL_append _ _ _ hl, splitCharL_not_mem _ _ hr]
  simp only [hne, hmem, Bool.false_eq_true, if_false, if_true, reduceIte]

/-- Evaluation of the thousand branch of `chinese_to_number` on an
input with exactly one '千' and no '萬'. -/
theorem chinese_to_number_qian_split (left right : List Char)
    (hlw : '萬' ∉ left) (hrw : '萬' ∉ right) (hl : '千' ∉ left) (hr : '千' ∉ right) :
    chinese_to_number ⟨left ++ '千' :: right⟩ =
      (let leftL := if left.isEmpty then ['一'] else left
       let rightL := if right.isEmpty then ['0'] else right
       let left_num := if leftL = ['十'] then 10 else (number_mapping_str leftL).getD 1
       let result := left_num * 1000 + rightL.foldl charStepNoMag 0
       if result > 0 then some ((result : Nat) : ℚ) else none) := by
  have hne : (left ++ '千' :: right).isEmpty = false := by
    cases left <;> simp
  have hwan : '萬' ∉ left ++ '千' :: right := by
    simp only [List.mem_append, List.mem_cons]
    rintro (h | h | h)
    · exact hlw h
    · exact absurd h.symm (by decide)
    · exact hrw h
  have hmem : '千' ∈ left ++ '千' :: right := by simp
  unfold chinese_to_number
  rw [splitCharL_append _ _ _ hl, splitCharL_not_mem _ _ hr]
  simp only [hne, hmem, hwan, Bool.false_eq_true, if_false, if_true, reduceIte]

/-- C3 (amended): composite native-numeral expressions evaluate
compositionally, `multiplier × magnitude + remainder`, with one caveat
the counterexample forces: the default-to-1 for an elided multiplier
only exists in the thousand branch — the ten-thousand branch of
`chinese_to_number` starts its multiplier accumulator at 0 and has no
default, so a 萬-expression needs an explicit multiplier digit.  In
detail: (1) ⟨d⟩萬⟨r⟩ with an explicit digit word d and remainder r
(elided / digit word / [digit]千) evaluates to d·10000 + value(r);
(2) ⟨d⟩千 and ⟨d⟩千⟨e⟩ evaluate to d·1000 (+ e); (3) with the
multiplier elided, 千-expressions default it to 1; and (4) an input
containing no recognized numeral word evaluates to `none`. -/
theorem C3_numeral_composition :
    (∀ d v, (d, v) ∈ chineseDigits → ∀ r, wanRemValid r →
      chinese_to_number ⟨d :: '萬' :: wanRemChars r⟩ =
        some ((v * 10000 + wanRemValue r : Nat) : ℚ)) ∧
    (∀ d v, (d, v) ∈ chineseDigits →
      chinese_to_number ⟨[d, '千']⟩ = some ((v * 1000 : Nat) : ℚ) ∧
      ∀ e w, (e, w) ∈ chineseDigits →
        chinese_to_number ⟨[d, '千', e]⟩ = some ((v * 1000 + w : Nat) : ℚ)) ∧
    (chinese_to_number "千" = some ((1000 : Nat) : ℚ) ∧
      ∀ e w, (e, w) ∈ chineseDigits →
        chinese_to_number ⟨['千', e]⟩ = some ((1000 + w : Nat) : ℚ)) ∧
    (∀ s : String, (∀ c ∈ s.data, number_mapping_char c = none) →
      chinese_to_number s = none) := by
  have qian_digit_notmem : ∀ {e : Char} {w : Nat}, (e, w) ∈ chineseDigits →
      ('萬' ∉ [e] ∧ '千' ∉ [e]) := by
    intro e w hw
    obtain ⟨h1, h2, -, -⟩ := digit_not_special hw
    constructor
    · simp only [List.mem_singleton]
      exact fun h => h1 h.symm
    · simp only [List.mem_singleton]
      exact fun h => h2 h.symm
  have nm_str_digit : ∀ {d : Char} {v : Nat}, (d, v) ∈ chineseDigits →
      number_mapping_str [d] = some v := by
    intro d v hd
    fin_cases hd <;> rfl
  have notten : ∀ {d : Char} {v : Nat}, (d, v) ∈ chineseDigits → ¬([d] = ['十']) := by
    intro d v hd h
    have : d = '十' := by injection h
    exact (digit_not_special hd).2.2.1 this
  refine ⟨?_, ?_, ?_, ?_⟩
  · -- (1) ten-thousand branch with explicit multiplier digit
    intro d v hd r hrv
    obtain ⟨hdw, hdq, -, -⟩ := digit_not_special hd
    have hldm : '萬' ∉ [d] := by
      simp only [List.mem_singleton]
      exact fun h => hdw h.symm
    have hrem : '萬' ∉ wanRemChars r := by
      cases r with
      | empty => simp [wanRemChars]
      | digit e =>
        obtain ⟨w, hw⟩ := hrv
        exact (qian_digit_notmem hw).1
      | thousands o =>
        cases o with
        | none => decide
        | some e =>
          obtain ⟨w, hw⟩ := hrv
          have he := (digit_not_special hw).1
          simp only [wanRemChars, List.mem_cons, List.mem_singleton]
          rintro (h | h)
          · exact he h.symm
          · exact absurd h (by decide)
    have hsplit := chinese_to_number_wan_split [d] (wanRemChars r) hldm hrem
    rw [show (⟨d :: '萬' :: wanRemChars r⟩ : String) = ⟨[d] ++ '萬' :: wanRemChars r⟩ from rfl,
      hsplit]
    have hleft : [d].foldl charStepMag 0 = v := by
      simp [List.foldl_cons, List.foldl_nil, charStepMag_digit hd]
    have hvpos := digit_pos hd
    cases r with
    | empty =>
      have h0 : (['0'].foldl charStepMag 0) = 0 := by decide
      simp only [wanRemChars, wanRemValue, List.isEmpty_nil, if_true, hleft, h0]
      have hpos : v * 10000 + 0 > 0 := by omega
      rw [if_pos hpos]
    | digit e =>
      obtain ⟨w, hw⟩ := hrv
      have he : [e].foldl charStepMag 0 = w := by
        simp [List.foldl_cons, List.foldl_nil, charStepMag_digit hw]
      simp only [wanRemChars, wanRemValue, List.isEmpty_cons, Bool.false_eq_true,
        reduceIte, hleft, he, digit_value hw]
      have hpos : v * 10000 + w > 0 := by omega
      rw [if_pos hpos]
    | thousands o =>
      cases o with
      | none =>
        have h1000 : (['千'].foldl charStepMag 0) = 1000 := by decide
        simp only [wanRemChars, wanRemValue, List.isEmpty_cons, Bool.false_eq_true,
          reduceIte, hleft, h1000]
        have hpos : v * 10000 + 1000 > 0 := by omega
        rw [if_pos hpos]
      | some e =>
        obtain ⟨w, hw⟩ := hrv
        have hwpos := digit_pos hw
        have hfold : ([e, '千'].foldl charStepMag 0) = w * 1000 := by
          simp only [List.foldl_cons, List.foldl_nil, charStepMag_digit hw]
          have hq : charStepMag (0 * 10 + w) '千' = max 1 (0 * 10 + w) * 1000 := by
            simp [charStepMag, number_mapping_char]
          rw [hq]
          have hmax : max 1 (0 * 10 + w) = w := by omega
          rw [hmax]
        simp only [wanRemChars, wanRemValue, List.isEmpty_cons, Bool.false_eq_true,
          reduceIte, hleft, hfold, digit_value hw]
        have hpos : v * 10000 + w * 1000 > 0 := by omega
        rw [if_pos hpos]
  · -- (2) thousand branch with explicit multiplier digit
    intro d v hd
    have hvpos := digit_pos hd
    obtain ⟨hmd, hqd⟩ := qian_digit_notmem hd
    constructor
    · have hsplit := chinese_to_number_qian_split [d] [] hmd (by simp) hqd (by simp)
      rw [show (⟨[d, '千']⟩ : String) = ⟨[d] ++ '千' :: []⟩ from rfl, hsplit]
      have h0 : (['0'].foldl charStepNoMag 0) = 0 := by decide
      simp only [List.isEmpty_cons, List.isEmpty_nil, Bool.false_eq_true, reduceIte,
        if_true, if_neg (notten hd), nm_str_digit hd, Option.getD_some, h0]
      have hpos : v * 1000 + 0 > 0 := by omega
      rw [if_pos hpos]
      norm_num
    · intro e w hw
      obtain ⟨hme, hqe⟩ := qian_digit_notmem hw
      have hsplit := chinese_to_number_qian_split [d] [e] hmd hme hqd hqe
      rw [show (⟨[d, '千', e]⟩ : String) = ⟨[d] ++ '千' :: [e]⟩ from rfl, hsplit]
      have hre : ([e].foldl charStepNoMag 0) = w := by
        simp [List.foldl_cons, List.foldl_nil, charStepNoMag_digit hw]
      simp only [List.isEmpty_cons, Bool.false_eq_true, reduceIte,
        if_neg (notten hd), nm_str_digit hd, Option.getD_some, hre]
      have hpos : v * 1000 + w > 0 := by omega
      rw [if_pos hpos]
  · -- (3) thousand branch with elided multiplier defaults to 1
    constructor
    · rfl
    · intro e w hw
      obtain ⟨hme, hqe⟩ := qian_digit_notmem hw
      have hsplit := chinese_to_number_qian_split [] [e] (by simp) hme (by simp) hqe
      rw [show (⟨['千', e]⟩ : String) = ⟨[] ++ '千' :: [e]⟩ from rfl, hsplit]
      have hre : ([e].foldl charStepNoMag 0) = w := by
        simp [List.foldl_cons, List.foldl_nil, charStepNoMag_digit hw]
      have hone : number_mapping_str ['一'] = some 1 := rfl
      have hnotten : ¬((['一'] : List Char) = ['十']) := by decide
      simp only [List.isEmpty_nil, List.isEmpty_cons, Bool.false_eq_true, reduceIte,
        if_true, if_neg hnotten, hone, Option.getD_some, hre, one_mul]
      have hpos : 1000 + w > 0 := by omega
      rw [if_pos hpos]
  · -- (4) no recognized numeral word: none
    intro s h
    have hw : '萬' ∉ s.data := fun m => absurd (h _ m) (by decide)
    have hq : '千' ∉ s.data := fun m => absurd (h _ m) (by decide)
    unfold chinese_to_number
    rcases he : s.data with _ | ⟨c, rest⟩
    · simp
    · have hw' : ¬('萬' ∈ c :: rest) := he ▸ hw
      have hq' : ¬('千' ∈ c :: rest) := he ▸ hq
      simp [hw', hq']

/-- Witness for C3 at concrete expressions: 兩萬五千 = 25000,
千五 = 1005 (elided thousand multiplier defaults to 1), and an input
with no numeral word gives `none`. -/
theorem C3_numeral_composition_witness :
    chinese_to_number "兩萬五千" = some ((25000 : Nat) : ℚ) ∧
    chinese_to_number "千五" = some ((1005 : Nat) : ℚ) ∧
    chinese_to_number "abc" = none := by
  refine ⟨?_, ?_, ?_⟩
  · exact C3_numeral_composition.1 '兩' 2 (by decide)
      (WanRemainder.thousands (some '五')) ⟨5, by decide⟩
  · exact C3_numeral_composition.2.2.1.2 '五' 5 (by decide)
  · exact C3_numeral_composition.2.2.2 "abc" (by decide)

/-- Counterexample to C3 as stated: in "萬五千" the ten-thousand
multiplier is elided, and the claim's default-to-1 would give
1·10000 + 5000 = 15000; the code's ten-thousand branch has no default
(its accumulator starts at 0), so it returns 5000. -/
theorem C3_counterexample :
    chinese_to_number "萬五千" = some ((5000 : Nat) : ℚ) ∧
    chinese_to_number "萬五千" ≠ some ((1 * 10000 + 5000 : Nat) : ℚ) := by
  constructor
  · rfl
  · intro h
    rw [show chinese_to_number "萬五千" = some ((5000 : Nat) : ℚ) from rfl] at h
    simp at h

theorem pyCharLower_cases (c : Char) :
    pyCharLower c = c ∨ pyCharLower c ∈ lowerAsciiChars := by
  by_cases h : c ∈ ['A', 'B', 'C', 'D', 'E', 'F', 'G', 'H', 'I', 'J', 'K', 'L', 'M', 'N', 'O', 'P', 'Q', 'R', 'S', 'T', 'U', 'V', 'W', 'X', 'Y', 'Z']
  · right
    fin_cases h <;> decide
  · left
    simp only [List.mem_cons, List.not_mem_nil, or_false, not_or] at h
    obtain ⟨h1, h2, h3, h4, h5, h6, h7, h8, h9, h10, h11, h12, h13, h14, h15, h16, h17, h18, h19, h20, h21, h22, h23, h24, h25, h26⟩ := h
    simp only [pyCharLower, h1, h2, h3, h4, h5, h6, h7, h8, h9, h10, h11, h12, h13, h14, h15, h16, h17, h18, h19, h20, h21, h22, h23, h24, h25, h26, if_false]

theorem pyCharLower_of_lower {c : Char} (h : c ∈ lowerAsciiChars) : pyCharLower c = c := by
  simp only [lowerAsciiChars] at h
  fin_cases h <;> rfl

theorem pyCharLower_idem (c : Char) : pyCharLower (pyCharLower c) = pyCharLower c := by
  rcases pyCharLower_cases c with h | h
  · rw [h]
    exact h
  · exact pyCharLower_of_lower h

theorem lowerFixed_map_pyCharLower (l : List Char) : lowerFixed (l.map pyCharLower) := by
  intro c hc
  obtain ⟨d, -, rfl⟩ := List.mem_map.mp hc
  exact pyCharLower_idem d

theorem map_pyCharLower_eq_self {l : List Char} (h : lowerFixed l) :
    l.map pyCharLower = l := by
  induction l with
  | nil => rfl
  | cons a t ih =>
    rw [List.map_cons, h a (List.mem_cons_self a t),
      ih (fun c hc => h c (List.mem_cons_of_mem _ hc))]

theorem pyLower_eq_self {t : String} (h : lowerFixed t.data) : pyLower t = t := by
  cases t with
  | mk d => exact congrArg String.mk (map_pyCharLower_eq_self h)

theorem mem_pyReplaceF (pat repl : List Char) :
    ∀ (fuel : Nat) (l : List Char) (c : Char), c ∈ pyReplaceF pat repl fuel l →
      c ∈ repl ∨ c ∈ l := by
  intro fuel
  induction fuel with
  | zero => exact fun l c h => Or.inr h
  | succ n ih =>
    intro l c h
    cases l with
    | nil => simp [pyReplaceF] at h
    | cons a rest =>
      simp only [pyReplaceF] at h
      by_cases hp : pat.isPrefixOf (a :: rest)
      · rw [if_pos hp] at h
        rcases List.mem_append.mp h with h1 | h1
        · exact Or.inl h1
        · rcases ih _ _ h1 with h2 | h2
          · exact Or.inl h2
          · exact Or.inr (List.mem_cons_of_mem _ (List.mem_of_mem_drop h2))
      · rw [if_neg hp] at h
        rcases List.mem_cons.mp h with h1 | h1
        · exact Or.inr (h1 ▸ List.mem_cons_self a rest)
        · rcases ih _ _ h1 with h2 | h2
          · exact Or.inl h2
          · exact Or.inr (List.mem_cons_of_mem _ h2)

theorem lowerFixed_pyReplace (s pat repl : String) (hs : lowerFixed s.data)
    (hrepl : lowerFixed repl.data) : lowerFixed (pyReplace s pat repl).data := by
  unfold pyReplace
  split
  · exact hs
  · intro c hc
    rcases mem_pyReplaceF _ _ _ _ _ hc with h | h
    · exact hrepl _ h
    · exact hs _ h

theorem lowerFixed_alias_fold (pairs : List (String × String))
    (hstd : ∀ p ∈ pairs, lowerFixed p.1.data) :
    ∀ t : String, lowerFixed t.data →
      lowerFixed ((pairs.foldl (fun text p =>
        if pyContains p.2 text then pyReplace text p.2 p.1 else text) t).data) := by
  induction pairs with
  | nil => exact fun t ht => ht
  | cons p ps ih =>
    intro t ht
    simp only [List.foldl_cons]
    apply ih (fun q hq => hstd q (List.mem_cons_of_mem _ hq))
    by_cases hc : pyContains p.2 t = true
    · rw [if_pos hc]
      exact lowerFixed_pyReplace t p.2 p.1 ht (hstd p (List.mem_cons_self _ _))
    · rw [if_neg hc]
      exact ht

theorem alias_fold_noop (pairs : List (String × String)) (t : String)
    (h : ∀ p ∈ pairs, isSubL p.2.data t.data = false) :
    pairs.foldl (fun text p =>
      if pyContains p.2 text then pyReplace text p.2 p.1 else text) t = t := by
  induction pairs with
  | nil => rfl
  | cons p ps ih =>
    have hp : pyContains p.2 t = false := h p (List.mem_cons_self _ _)
    simp only [List.foldl_cons, hp, Bool.false_eq_true, if_false]
    exact ih (fun q hq => h q (List.mem_cons_of_mem _ hq))

theorem mem_stripL {c : Char} {l : List Char} (h : c ∈ stripL l) : c ∈ l := by
  unfold stripL at h
  rw [List.mem_reverse] at h
  have h1 : c ∈ (l.dropWhile isPySpace).reverse := (List.dropWhile_sublist _).subset h
  rw [List.mem_reverse] at h1
  exact (List.dropWhile_sublist _).subset h1

theorem dropWhile_idem (p : Char → Bool) (l : List Char) :
    (l.dropWhile p).dropWhile p = l.dropWhile p := by
  induction l with
  | nil => rfl
  | cons a t ih =>
    by_cases hp : p a
    · rw [List.dropWhile_cons]
      simp only [hp, if_true, reduceIte]
      exact ih
    · rw [List.dropWhile_cons]
      simp only [hp, Bool.false_eq_true, if_false, reduceIte]
      rw [List.dropWhile_cons]
      simp only [hp, Bool.false_eq_true, if_false, reduceIte]

theorem dropWhile_eq_self_of_prefix (p : Char → Bool) {l l' : List Char}
    (hpre : l' <+: l) (hl : l.dropWhile p = l) : l'.dropWhile p = l' := by
  cases l' with
  | nil => rfl
  | cons a t =>
    obtain ⟨rest, rfl⟩ := hpre
    have hpa : p a = false := by
      by_contra hpa
      rw [Bool.not_eq_false] at hpa
      rw [List.cons_append, List.dropWhile_cons] at hl
      simp only [hpa, if_true, reduceIte] at hl
      have hsub : List.Sublist ((t ++ rest).dropWhile p) (t ++ rest) :=
        List.dropWhile_sublist p
      have hle := hsub.length_le
      rw [hl] at hle
      simp at hle
    rw [List.dropWhile_cons]
    simp [hpa]

theorem stripL_idem (l : List Char) : stripL (stripL l) = stripL l := by
  have hy : (l.dropWhile isPySpace).dropWhile isPySpace = l.dropWhile isPySpace :=
    dropWhile_idem isPySpace l
  have hz : (((l.dropWhile isPySpace).reverse.dropWhile isPySpace).dropWhile isPySpace) =
      (l.dropWhile isPySpace).reverse.dropWhile isPySpace :=
    dropWhile_idem isPySpace (l.dropWhile isPySpace).reverse
  have hrz : ((l.dropWhile isPySpace).reverse.dropWhile isPySpace).reverse <+:
      l.dropWhile isPySpace := by
    have hsuf : (l.dropWhile isPySpace).reverse.dropWhile isPySpace <:+
        (l.dropWhile isPySpace).reverse := List.dropWhile_suffix isPySpace
    have := List.reverse_prefix.mpr hsuf
    rwa [List.reverse_reverse] at this
  have h1 : (((l.dropWhile isPySpace).reverse.dropWhile isPySpace).reverse).dropWhile
      isPySpace = ((l.dropWhile isPySpace).reverse.dropWhile isPySpace).reverse :=
    dropWhile_eq_self_of_prefix isPySpace hrz hy
  unfold stripL
  rw [h1, List.reverse_reverse, hz]

theorem pyStrip_idem (t : String) : pyStrip (pyStrip t) = pyStrip t :=
  congrArg String.mk (stripL_idem t.data)

set_option maxHeartbeats 1000000 in
theorem alias_standards_lowerFixed : ∀ p ∈ product_alias_pairs, lowerFixed p.1.data := by
  intro p hp
  fin_cases hp <;> decide

set_option maxHeartbeats 800000 in
theorem normalize_fix_iphone : normalize_product_name "iphone" = "iphone" := by decide

set_option maxHeartbeats 800000 in
theorem normalize_fix_ps5 : normalize_product_name "ps5" = "ps5" := by decide

set_option maxHeartbeats 800000 in
theorem normalize_fix_switch : normalize_product_name "switch" = "switch" := by decide

set_option maxHeartbeats 800000 in
theorem normalize_fix_macbook : normalize_product_name "macbook" = "macbook" := by decide

set_option maxHeartbeats 800000 in
theorem normalize_fix_viper : normalize_product_name "viper" = "viper" := by decide

set_option maxHeartbeats 800000 in
theorem normalize_airpods_eq : normalize_product_name "airpods" = "airpodss" := by decide

theorem lowerFixed_apply_product_aliases (t : String) (ht : lowerFixed t.data) :
    lowerFixed (apply_product_aliases t).data := by
  unfold apply_product_aliases
  exact lowerFixed_alias_fold product_alias_pairs alias_standards_lowerFixed t ht

theorem apply_product_aliases_noop (t : String)
    (h : ∀ p ∈ product_alias_pairs, isSubL p.2.data t.data = false) :
    apply_product_aliases t = t := by
  unfold apply_product_aliases
  exact alias_fold_noop product_alias_pairs t h

theorem mem_data_pyStrip {c : Char} {t : String} (h : c ∈ (pyStrip t).data) : c ∈ t.data :=
  mem_stripL h

/-- C10 (amended): alias normalisation is idempotent on every input
whose normal form contains no alias occurrence, and every canonical
keyword of the alias table except "airpods" is a fixed point.  The
exception the counterexample forces: the alias "airpod" is a proper
substring of its own canonical name, so "airpods" normalises to
"airpodss" and idempotence fails on inputs whose normal form still
contains "airpod". -/
theorem C10_normalize_idempotent :
    (∀ s : String, (∀ p ∈ product_alias_pairs,
        isSubL p.2.data (normalize_product_name s).data = false) →
      normalize_product_name (normalize_product_name s) = normalize_product_name s) ∧
    normalize_product_name "iphone" = "iphone" ∧
    normalize_product_name "ps5" = "ps5" ∧
    normalize_product_name "switch" = "switch" ∧
    normalize_product_name "macbook" = "macbook" ∧
    normalize_product_name "viper" = "viper" ∧
    normalize_product_name "airpods" = "airpodss" := by
  refine ⟨?_, normalize_fix_iphone, normalize_fix_ps5, normalize_fix_switch,
    normalize_fix_macbook, normalize_fix_viper, normalize_airpods_eq⟩
  intro s h
  have hfix : lowerFixed (normalize_product_name s).data := by
    intro c hc
    have hc' : c ∈ (apply_product_aliases (pyLower s)).data :=
      @mem_data_pyStrip c (apply_product_aliases (pyLower s)) hc
    exact lowerFixed_apply_product_aliases (pyLower s)
      (lowerFixed_map_pyCharLower s.data) c hc'
  have hlow : pyLower (normalize_product_name s) = normalize_product_name s :=
    pyLower_eq_self hfix
  have halias : apply_product_aliases (normalize_product_name s) =
      normalize_product_name s :=
    apply_product_aliases_noop (normalize_product_name s) h
  have hstrip : pyStrip (normalize_product_name s) = normalize_product_name s := by
    show pyStrip (pyStrip (apply_product_aliases (pyLower s))) =
      pyStrip (apply_product_aliases (pyLower s))
    exact pyStrip_idem _
  calc normalize_product_name (normalize_product_name s)
      = pyStrip (apply_product_aliases (pyLower (normalize_product_name s))) := rfl
    _ = pyStrip (apply_product_aliases (normalize_product_name s)) := by rw [hlow]
    _ = pyStrip (normalize_product_name s) := by rw [halias]
    _ = normalize_product_name s := hstrip

set_option maxHeartbeats 1600000 in
/-- Witness for C10 at the concrete input "iphone 15", whose normal
form "iphone 15" contains no alias. -/
theorem C10_normalize_idempotent_witness :
    normalize_product_name (normalize_product_name "iphone 15") =
      normalize_product_name "iphone 15" :=
  C10_normalize_idempotent.1 "iphone 15" (by decide)

set_option maxHeartbeats 1600000 in
/-- Counterexample to C10 as stated: the canonical keyword "airpods" is
not a fixed point (its alias "airpod" is a substring of it, so it
normalises to "airpodss"), and normalisation is not idempotent on
"airpod". -/
theorem C10_counterexample :
    normalize_product_name "airpods" = "airpodss" ∧
    "airpodss" ≠ "airpods" ∧
    normalize_product_name "airpod" = "airpods" ∧
    normalize_product_name (normalize_product_name "airpod") ≠
      normalize_product_name "airpod" := by
  exact ⟨by decide, by decide, by decide, by decide⟩

theorem fst_foldl_sourceStep (sources : List (String × Except Unit (List SearchItem))) :
    ∀ acc : List SearchItem × List (String × List SearchItem),
      (List.foldl sourceStep acc sources).1 = List.foldl itemStep acc.1 sources := by
  induction sources with
  | nil => intro acc; rfl
  | cons src rest ih =>
    intro acc
    simp only [List.foldl_cons]
    rw [ih]
    have hstep : (sourceStep acc src).1 = itemStep acc.1 src := by
      rcases src with ⟨name, outcome⟩
      cases outcome with
      | error e => rfl
      | ok ps =>
        by_cases hps : ps.isEmpty
        · have : ps = [] := List.isEmpty_iff.mp hps
          subst this
          simp [sourceStep, itemStep]
        · simp [sourceStep, itemStep, hps]
    rw [hstep]

theorem surviving_items_spec (sources : List (String × Except Unit (List SearchItem))) :
    (List.foldl sourceStep ([], []) sources).1 = surviving_items sources := by
  rw [fst_foldl_sourceStep]
  rfl

theorem le_foldr_max {x : Nat} {l : List Nat} (h : x ∈ l) : x ≤ l.foldr max 0 := by
  induction l with
  | nil => cases h
  | cons a t ih =>
    rcases List.mem_cons.mp h with rfl | h
    · exact Nat.le_max_left _ _
    · exact le_trans (ih h) (Nat.le_max_right _ _)

theorem foldr_max_mem {l : List Nat} (h : l ≠ []) : l.foldr max 0 ∈ l := by
  induction l with
  | nil => exact absurd rfl h
  | cons a t ih =>
    by_cases ht : t = []
    · subst ht
      simp
    · rcases Nat.le_total a (t.foldr max 0) with hle | hle
      · rw [List.foldr_cons, Nat.max_eq_right hle]
        exact List.mem_cons_of_mem _ (ih ht)
      · rw [List.foldr_cons, Nat.max_eq_left hle]
        exact List.mem_cons_self _ _

/-- C6: the merge step of the aggregate search.  With surviving items:
the merged list is sorted ascending by price (a stable sort, agreeing
with Python's), `cheapest_item` is its first element — a minimum-price
element of the surviving items — `min_price` is that minimum,
`max_price` the maximum item price, `avg_price` the arithmetic mean
(stated as avg · count = sum), `total_results` the count and
`all_results` the first 20 elements of the sorted list.  With no
surviving items the populated "no relevant primary product found"
result is returned (cheapest null, all totals zero). -/
theorem C6_merge_statistics (sources : List (String × Except Unit (List SearchItem)))
    (pname : String) :
    (surviving_items sources = [] →
      search_comprehensive_prices sources pname = create_empty_result pname ∧
      (create_empty_result pname).cheapest_item = none ∧
      (create_empty_result pname).min_price = 0 ∧
      (create_empty_result pname).max_price = 0 ∧
      (create_empty_result pname).avg_price = 0 ∧
      (create_empty_result pname).total_results = 0 ∧
      (create_empty_result pname).all_results = []) ∧
    (surviving_items sources ≠ [] →
      List.Sorted lePrice (List.insertionSort lePrice (surviving_items sources)) ∧
      (List.insertionSort lePrice (surviving_items sources)).Perm
        (surviving_items sources) ∧
      (search_comprehensive_prices sources pname).cheapest_item =
        some (List.insertionSort lePrice (surviving_items sources)).headI ∧
      (List.insertionSort lePrice (surviving_items sources)).headI ∈
        surviving_items sources ∧
      (search_comprehensive_prices sources pname).min_price =
        (List.insertionSort lePrice (surviving_items sources)).headI.price ∧
      (∀ x ∈ surviving_items sources,
        (search_comprehensive_prices sources pname).min_price ≤ x.price) ∧
      (∀ x ∈ surviving_items sources,
        x.price ≤ (search_comprehensive_prices sources pname).max_price) ∧
      (search_comprehensive_prices sources pname).max_price ∈
        (surviving_items sources).map SearchItem.price ∧
      (search_comprehensive_prices sources pname).avg_price *
          ((surviving_items sources).length : ℚ) =
        (((surviving_items sources).map SearchItem.price).sum : ℚ) ∧
      (search_comprehensive_prices sources pname).total_results =
        (surviving_items sources).length ∧
      (search_comprehensive_prices sources pname).all_results =
        (List.insertionSort lePrice (surviving_items sources)).take 20) := by
  have hfst := surviving_items_spec sources
  constructor
  · intro h
    have hempty : (surviving_items sources).isEmpty = true := by
      rw [h]
      rfl
    refine ⟨?_, rfl, rfl, rfl, rfl, rfl, rfl⟩
    simp only [search_comprehensive_prices, hfst, hempty, if_true, reduceIte]
  · intro h
    have hne : (surviving_items sources).isEmpty = false := by
      cases hsur : surviving_items sources with
      | nil => exact absurd hsur h
      | cons a t => rfl
    have hsorted := List.sorted_insertionSort lePrice (surviving_items sources)
    have hperm := List.perm_insertionSort lePrice (surviving_items sources)
    obtain ⟨c, rest, hs⟩ :
        ∃ c rest, List.insertionSort lePrice (surviving_items sources) = c :: rest := by
      cases hsi : List.insertionSort lePrice (surviving_items sources) with
      | nil =>
        exfalso
        have hlen := List.length_insertionSort lePrice (surviving_items sources)
        rw [hsi] at hlen
        exact h (List.length_eq_zero.mp hlen.symm)
      | cons c rest => exact ⟨c, rest, rfl⟩
    have hheadI : (List.insertionSort lePrice (surviving_items sources)).headI = c := by
      rw [hs]
      rfl
    have hcmem : c ∈ surviving_items sources := by
      have hmem : c ∈ List.insertionSort lePrice (surviving_items sources) := by
        rw [hs]
        exact List.mem_cons_self _ _
      exact (List.mem_insertionSort _).mp hmem
    have hcmin : ∀ x ∈ surviving_items sources, c.price ≤ x.price := by
      intro x hx
      have hx' : x ∈ c :: rest := by
        rw [← hs]
        exact (List.mem_insertionSort _).mpr hx
      rcases List.mem_cons.mp hx' with rfl | hx'
      · exact le_refl _
      · have hsc : List.Sorted lePrice (c :: rest) := hs ▸ hsorted
        exact List.rel_of_sorted_cons hsc x hx'
    have hrec : search_comprehensive_prices sources pname =
        { product_name := pname
          cheapest_item :=
            some (List.insertionSort lePrice (surviving_items sources)).headI
          min_price :=
            (List.insertionSort lePrice (surviving_items sources)).headI.price
          max_price := ((surviving_items sources).map SearchItem.price).foldr max 0
          avg_price := (((surviving_items sources).map SearchItem.price).sum : ℚ) /
            ((surviving_items sources).length : ℚ)
          total_results := (surviving_items sources).length
          all_results := (List.insertionSort lePrice (surviving_items sources)).take 20
          search_results := (List.foldl sourceStep ([], []) sources).2
          summary := "過濾後找到 " ++ toString (surviving_items sources).length ++
            " 個相關商品，最低價 NT$" ++
            toString (List.insertionSort lePrice (surviving_items sources)).headI.price
          filter_info := "已自動過濾配件和不相關商品" } := by
      simp only [search_comprehensive_prices, hfst, hne, Bool.false_eq_true, if_false,
        reduceIte]
    have hlen0 : (surviving_items sources).length ≠ 0 := by
      intro h0
      exact h (List.length_eq_zero.mp h0)
    refine ⟨hsorted, hperm, by rw [hrec], by rw [hheadI]; exact hcmem, by rw [hrec],
      ?_, ?_, ?_, ?_, by rw [hrec], by rw [hrec]⟩
    · intro x hx
      rw [hrec]
      show (List.insertionSort lePrice (surviving_items sources)).headI.price ≤ x.price
      rw [hheadI]
      exact hcmin x hx
    · intro x hx
      rw [hrec]
      exact le_foldr_max (List.mem_map_of_mem SearchItem.price hx)
    · rw [hrec]
      exact foldr_max_mem (by simp only [ne_eq, List.map_eq_nil_iff]; exact h)
    · rw [hrec]
      show ((((surviving_items sources).map SearchItem.price).sum : ℚ) /
          ((surviving_items sources).length : ℚ)) * ((surviving_items sources).length : ℚ) =
        (((surviving_items sources).map SearchItem.price).sum : ℚ)
      exact div_mul_cancel₀ _ (Nat.cast_ne_zero.mpr hlen0)

/-- Witness for C6: a single raising source gives the populated empty
result, and for one source returning two items the cheapest is the
head of the price-sorted list. -/
theorem C6_merge_statistics_witness :
    search_comprehensive_prices [("FindPrice", Except.error ())] "x" =
      create_empty_result "x" ∧
    (search_comprehensive_prices
        [("FindPrice", Except.ok
          [{ name := "iPhone 15 128GB", price := 24900, link := "l1", platform := "FindPrice" },
           { name := "iPhone 15 保護殼", price := 299, link := "l2", platform := "FindPrice" }])]
        "iphone 15").cheapest_item =
      some (List.insertionSort lePrice (surviving_items
        [("FindPrice", Except.ok
          [{ name := "iPhone 15 128GB", price := 24900, link := "l1", platform := "FindPrice" },
           { name := "iPhone 15 保護殼", price := 299, link := "l2", platform := "FindPrice" }])])).headI := by
  constructor
  · exact ((C6_merge_statistics [("FindPrice", Except.error ())] "x").1 rfl).1
  · exact ((C6_merge_statistics _ "iphone 15").2 (by decide)).2.2.1

theorem tracker_name_matches_iff (name : String) (t : PriceTracker) :
    tracker_name_matches name t = true ↔ tracker_key t = pyLower name := by
  simp [tracker_name_matches, tracker_key]

theorem updateFirstMatching_map_key (p : PriceTracker → Bool) (f : PriceTracker → PriceTracker)
    (hf : ∀ t, tracker_key (f t) = tracker_key t) :
    ∀ ts : List PriceTracker,
      (updateFirstMatching p f ts).map tracker_key = ts.map tracker_key := by
  intro ts
  induction ts with
  | nil => rfl
  | cons t ts ih =>
    simp only [updateFirstMatching]
    by_cases hp : p t
    · simp [hp, hf]
    · simp [hp, ih]

theorem filter_eq_nil_of_find?_none {p : PriceTracker → Bool} {ts : List PriceTracker}
    (h : ts.find? p = none) : ts.filter p = [] := by
  rw [List.find?_eq_none] at h
  rw [List.filter_eq_nil_iff]
  exact h

theorem filter_name_singleton {name : String} {ts : List PriceTracker} {t₀ : PriceTracker}
    (hnd : (ts.map tracker_key).Nodup)
    (hf : ts.find? (tracker_name_matches name) = some t₀) :
    ts.filter (tracker_name_matches name) = [t₀] := by
  induction ts with
  | nil => simp at hf
  | cons t ts ih =>
    rw [List.map_cons, List.nodup_cons] at hnd
    by_cases hp : tracker_name_matches name t
    · have ht0 : t₀ = t := by
        rw [List.find?_cons_of_pos _ hp] at hf
        exact (Option.some_inj.mp hf).symm
      subst ht0
      rw [List.filter_cons_of_pos hp]
      have hrest : ts.filter (tracker_name_matches name) = [] := by
        rw [List.filter_eq_nil_iff]
        intro a ha hcontra
        have ha' : tracker_key a = pyLower name := (tracker_name_matches_iff name a).mp hcontra
        have ht' : tracker_key t₀ = pyLower name := (tracker_name_matches_iff name t₀).mp hp
        exact hnd.1 (ht' ▸ ha' ▸ List.mem_map_of_mem tracker_key ha)
      rw [hrest]
    · rw [List.find?_cons_of_neg _ hp] at hf
      rw [List.filter_cons_of_neg hp]
      exact ih hnd.2 hf

theorem filter_updateFirstMatching {p : PriceTracker → Bool} {f : PriceTracker → PriceTracker}
    (hpf : ∀ t, p (f t) = p t) :
    ∀ {ts : List PriceTracker} {t₀ : PriceTracker}, ts.filter p = [t₀] →
      (updateFirstMatching p f ts).filter p = [f t₀] := by
  intro ts
  induction ts with
  | nil => intro t₀ h; simp at h
  | cons t ts ih =>
    intro t₀ hfil
    by_cases hp : p t
    · rw [List.filter_cons_of_pos hp, List.cons_eq_cons] at hfil
      obtain ⟨ht, hrest⟩ := hfil
      subst ht
      simp only [updateFirstMatching, hp, if_true, reduceIte]
      have hpf' : p (f t) = true := by rw [hpf]; exact hp
      rw [List.filter_cons_of_pos hpf', hrest]
    · rw [List.filter_cons_of_neg hp] at hfil
      simp only [updateFirstMatching, hp, Bool.false_eq_true, if_false, reduceIte]
      rw [List.filter_cons_of_neg hp]
      exact ih hfil

theorem filter_key_length_le_one {ts : List PriceTracker}
    (hnd : (ts.map tracker_key).Nodup) (n : String) :
    (ts.filter (fun t => tracker_key t == n)).length ≤ 1 := by
  induction ts with
  | nil => simp
  | cons t ts ih =>
    rw [List.map_cons, List.nodup_cons] at hnd
    by_cases hp : (tracker_key t == n) = true
    · rw [List.filter_cons, if_pos hp]
      have hrest : ts.filter (fun t => tracker_key t == n) = [] := by
        rw [List.filter_eq_nil_iff]
        intro a ha hcontra
        have ha' : tracker_key a = n := by
          simpa using hcontra
        have ht' : tracker_key t = n := by
          simpa using hp
        exact hnd.1 (ht' ▸ ha' ▸ List.mem_map_of_mem tracker_key ha)
      rw [hrest]
      simp
    · rw [List.filter_cons, if_neg hp]
      exact ih hnd.2

theorem countActive_le_one {ts : List PriceTracker}
    (hnd : (ts.map tracker_key).Nodup) (n : String) :
    countActiveTrackers n ts ≤ 1 := by
  unfold countActiveTrackers
  have hff : ts.filter (fun t => t.is_active && (tracker_key t == n)) =
      (ts.filter (fun t => tracker_key t == n)).filter (fun t => t.is_active) := by
    rw [List.filter_filter]
  rw [hff]
  calc ((ts.filter (fun t => tracker_key t == n)).filter (fun t => t.is_active)).length
      ≤ (ts.filter (fun t => tracker_key t == n)).length := List.length_filter_le _ _
    _ ≤ 1 := filter_key_length_le_one hnd n

theorem handle_track_product_filter
    (fp : String → Option ℚ) (search : Except Unit (Option (ℚ × SearchItem)))
    (use_db save_throws : Bool) (now : Nat) (new_id user_id : String)
    (intent : TrackRequest) (ts : List PriceTracker)
    (hact : intent.action ≠ "track_product_need_price")
    (p : ℚ) (hfp : fp intent.target_price = some p)
    (hsave : use_db = false ∨ save_throws = false)
    (hnd : (ts.map tracker_key).Nodup) :
    ∃ t, ((handle_track_product fp search use_db save_throws now new_id user_id intent
        ts).1).filter (tracker_name_matches intent.product_name) = [t] ∧
      t.is_active = true ∧ t.target_price = p := by
  have hsave' : (use_db && save_throws) = false := by
    rcases hsave with h | h <;> simp [h]
  rcases hfind : ts.find? (tracker_name_matches intent.product_name) with _ | t₀
  · -- create path: the new tracker is appended
    have hnil : ts.filter (tracker_name_matches intent.product_name) = [] :=
      filter_eq_nil_of_find?_none hfind
    have hmatch : ∀ lp lc, tracker_name_matches intent.product_name
        { user_id := user_id, product_name := intent.product_name, target_price := p,
          platforms := ["all"], created_at := now, last_checked := lc, last_price := lp,
          track_mode := intent.track_mode,
          tracker_id := if use_db then some new_id else none } = true := by
      intro lp lc
      simp [tracker_name_matches]
    rcases search with e | o
    · refine
        ⟨{ user_id := user_id, product_name := intent.product_name, target_price := p,
           platforms := ["all"], created_at := now, track_mode := intent.track_mode,
           tracker_id := if use_db then some new_id else none }, ?_, rfl, rfl⟩
      simp only [handle_track_product, if_neg hact, hfp, hfind, hsave',
        Bool.false_eq_true, if_false, reduceIte]
      rw [List.filter_append, hnil, List.nil_append, List.filter_cons,
        if_pos (hmatch none none), List.filter_nil]
    · rcases o with _ | ⟨cp, ch⟩
      · refine
          ⟨{ user_id := user_id, product_name := intent.product_name, target_price := p,
             platforms := ["all"], created_at := now, track_mode := intent.track_mode,
             tracker_id := if use_db then some new_id else none }, ?_, rfl, rfl⟩
        simp only [handle_track_product, if_neg hact, hfp, hfind, hsave',
          Bool.false_eq_true, if_false, reduceIte]
        rw [List.filter_append, hnil, List.nil_append, List.filter_cons,
          if_pos (hmatch none none), List.filter_nil]
      · refine
          ⟨{ user_id := user_id, product_name := intent.product_name, target_price := p,
             platforms := ["all"], created_at := now, last_checked := some now,
             last_price := some cp, track_mode := intent.track_mode,
             tracker_id := if use_db then some new_id else none }, ?_, rfl, rfl⟩
        simp only [handle_track_product, if_neg hact, hfp, hfind, hsave',
          Bool.false_eq_true, if_false, reduceIte]
        rw [List.filter_append, hnil, List.nil_append, List.filter_cons,
          if_pos (hmatch (some cp) (some now)), List.filter_nil]
  · -- update path: the first matching tracker is updated in place
    have hfil : ts.filter (tracker_name_matches intent.product_name) = [t₀] :=
      filter_name_singleton hnd hfind
    have hbase : ∀ t : PriceTracker,
        tracker_name_matches intent.product_name
          { t with target_price := p, is_active := true, created_at := now } =
        tracker_name_matches intent.product_name t := fun _ => rfl
    have hupd : ∀ cp : ℚ, ∀ t : PriceTracker,
        tracker_name_matches intent.product_name
          { t with last_price := some cp, last_checked := some now } =
        tracker_name_matches intent.product_name t := fun _ _ => rfl
    have hfil1 := filter_updateFirstMatching hbase hfil
    rcases search with e | o
    · refine ⟨{ t₀ with target_price := p, is_active := true, created_at := now }, ?_, rfl, rfl⟩
      simp only [handle_track_product, if_neg hact, hfp, hfind]
      exact hfil1
    · rcases o with _ | ⟨cp, ch⟩
      · refine ⟨{ t₀ with target_price := p, is_active := true, created_at := now }, ?_,
          rfl, rfl⟩
        simp only [handle_track_product, if_neg hact, hfp, hfind]
        exact hfil1
      · refine ⟨{ t₀ with target_price := p, is_active := true, created_at := now, last_price := some cp, last_checked := some now }, ?_, rfl, rfl⟩
        simp only [handle_track_product, if_neg hact, hfp, hfind]
        exact filter_updateFirstMatching (hupd cp) hfil1

theorem handle_track_product_nodup
    (fp : String → Option ℚ) (search : Except Unit (Option (ℚ × SearchItem)))
    (use_db save_throws : Bool) (now : Nat) (new_id user_id : String)
    (intent : TrackRequest) {ts : List PriceTracker}
    (hnd : (ts.map tracker_key).Nodup) :
    (((handle_track_product fp search use_db save_throws now new_id user_id intent
      ts).1).map tracker_key).Nodup := by
  by_cases hact : intent.action = "track_product_need_price"
  · simp only [handle_track_product, if_pos hact]
    exact hnd
  · rcases hfp : fp intent.target_price with _ | p
    · simp only [handle_track_product, if_neg hact, hfp]
      exact hnd
    · rcases hfind : ts.find? (tracker_name_matches intent.product_name) with _ | t₀
      · -- create path
        have hnotmem : pyLower intent.product_name ∉ ts.map tracker_key := by
          rw [List.find?_eq_none] at hfind
          intro hmem
          obtain ⟨t, hts, hkeyt⟩ := List.mem_map.mp hmem
          exact hfind t hts ((tracker_name_matches_iff intent.product_name t).mpr hkeyt)
        have happ : ∀ tnew : PriceTracker, tracker_key tnew = pyLower intent.product_name →
            ((ts ++ [tnew]).map tracker_key).Nodup := by
          intro tnew hkey
          rw [List.map_append, List.nodup_append]
          refine ⟨hnd, List.nodup_singleton _, ?_⟩
          intro a ha hb
          simp only [List.map_cons, List.map_nil, List.mem_singleton] at hb
          rw [hkey] at hb
          exact hnotmem (hb ▸ ha)
        by_cases hsave : (use_db && save_throws) = true
        · simp only [handle_track_product, if_neg hact, hfp, hfind, hsave, if_true,
            reduceIte]
          exact hnd
        · rw [Bool.not_eq_true] at hsave
          rcases search with e | o
          · simp only [handle_track_product, if_neg hact, hfp, hfind, hsave,
              Bool.false_eq_true, if_false, reduceIte]
            exact happ _ rfl
          · rcases o with _ | ⟨cp, ch⟩
            · simp only [handle_track_product, if_neg hact, hfp, hfind, hsave,
                Bool.false_eq_true, if_false, reduceIte]
              exact happ _ rfl
            · simp only [handle_track_product, if_neg hact, hfp, hfind, hsave,
                Bool.false_eq_true, if_false, reduceIte]
              exact happ _ rfl
      · -- update path: keys unchanged
        have hmap1 : (updateFirstMatching (tracker_name_matches intent.product_name)
            (fun t => { t with target_price := p, is_active := true, created_at := now })
            ts).map tracker_key = ts.map tracker_key :=
          updateFirstMatching_map_key (tracker_name_matches intent.product_name)
            (fun t => { t with target_price := p, is_active := true, created_at := now })
            (fun _ => rfl) ts
        rcases search with e | o
        · simp only [handle_track_product, if_neg hact, hfp, hfind]
          rw [hmap1]
          exact hnd
        · rcases o with _ | ⟨cp, ch⟩
          · simp only [handle_track_product, if_neg hact, hfp, hfind]
            rw [hmap1]
            exact hnd
          · simp only [handle_track_product, if_neg hact, hfp, hfind]
            rw [updateFirstMatching_map_key _
              (fun t => { t with last_price := some cp, last_checked := some now })
              (fun _ => rfl), hmap1]
            exact hnd

/-- C1: over the in-memory per-user tracker cache that
`handle_track_product` consults and mutates: starting from a state with
pairwise-distinct lowercased product names (e.g. the empty state), any
sequence of tracking requests preserves that distinctness, so at most
one active tracker exists per case-insensitive product name; and
issuing the same `TrackProduct{name, price}` twice (same intent and
parser, no storage failure) leaves exactly one active tracker for that
name, whose target price is the latest parsed price — the second
request updates the existing tracker in place instead of appending a
second one. -/
theorem C1_tracker_upsert (ts : List PriceTracker)
    (hnd : (ts.map tracker_key).Nodup) :
    (∀ calls : List TrackCall,
      ((apply_track_calls calls ts).map tracker_key).Nodup ∧
      ∀ n : String, countActiveTrackers n (apply_track_calls calls ts) ≤ 1) ∧
    (∀ c₁ c₂ : TrackCall, c₁.intent.action = "track_product" →
      c₂.intent = c₁.intent → c₂.floatParse = c₁.floatParse →
      ∀ p : ℚ, c₁.floatParse c₁.intent.target_price = some p →
      (c₁.use_db = false ∨ c₁.save_throws = false) →
      (c₂.use_db = false ∨ c₂.save_throws = false) →
      countActiveTrackers (pyLower c₁.intent.product_name)
        (apply_track_calls [c₁, c₂] ts) = 1 ∧
      ∀ t ∈ apply_track_calls [c₁, c₂] ts,
        tracker_key t = pyLower c₁.intent.product_name →
        t.is_active = true ∧ t.target_price = p) := by
  have hpres : ∀ (calls : List TrackCall) (ts₀ : List PriceTracker),
      ((ts₀.map tracker_key).Nodup) →
      ((apply_track_calls calls ts₀).map tracker_key).Nodup := by
    intro calls
    induction calls with
    | nil => exact fun ts₀ h => h
    | cons c cs ih =>
      intro ts₀ h
      have hstep := handle_track_product_nodup c.floatParse c.search c.use_db
        c.save_throws c.now c.new_id c.user_id c.intent h
      simp only [apply_track_calls, List.foldl_cons]
      exact ih _ hstep
  constructor
  · intro calls
    exact ⟨hpres calls ts hnd, fun n => countActive_le_one (hpres calls ts hnd) n⟩
  · intro c₁ c₂ hact₁ hint hfpeq p hfp hsave₁ hsave₂
    have hact : c₁.intent.action ≠ "track_product_need_price" := by
      rw [hact₁]
      decide
    have hnd₁ : (((handle_track_product c₁.floatParse c₁.search c₁.use_db c₁.save_throws
        c₁.now c₁.new_id c₁.user_id c₁.intent ts).1).map tracker_key).Nodup :=
      handle_track_product_nodup c₁.floatParse c₁.search c₁.use_db c₁.save_throws
        c₁.now c₁.new_id c₁.user_id c₁.intent hnd
    obtain ⟨t₂, hfil₂, hactive₂, htp₂⟩ :=
      handle_track_product_filter c₂.floatParse c₂.search c₂.use_db c₂.save_throws
        c₂.now c₂.new_id c₂.user_id c₂.intent
        ((handle_track_product c₁.floatParse c₁.search c₁.use_db c₁.save_throws
          c₁.now c₁.new_id c₁.user_id c₁.intent ts).1)
        (by rw [hint]; exact hact) p (by rw [hint, hfpeq]; exact hfp) hsave₂ hnd₁
    have hts2eq : apply_track_calls [c₁, c₂] ts =
        (handle_track_product c₂.floatParse c₂.search c₂.use_db c₂.save_throws c₂.now
          c₂.new_id c₂.user_id c₂.intent
          ((handle_track_product c₁.floatParse c₁.search c₁.use_db c₁.save_throws c₁.now
            c₁.new_id c₁.user_id c₁.intent ts).1)).1 := by
      simp only [apply_track_calls, List.foldl_cons, List.foldl_nil]
    rw [← hts2eq] at hfil₂
    rw [hint] at hfil₂
    constructor
    · unfold countActiveTrackers
      have hsplit : List.filter
          (fun t => t.is_active && (tracker_key t == pyLower c₁.intent.product_name))
          (apply_track_calls [c₁, c₂] ts) =
          List.filter (fun t => t.is_active)
            (List.filter (tracker_name_matches c₁.intent.product_name)
              (apply_track_calls [c₁, c₂] ts)) := by
        rw [List.filter_filter]
        rfl
      rw [hsplit, hfil₂, List.filter_cons, if_pos hactive₂, List.filter_nil]
      rfl
    · intro t ht hkey
      have hmem : t ∈ List.filter (tracker_name_matches c₁.intent.product_name)
          (apply_track_calls [c₁, c₂] ts) :=
        List.mem_filter.mpr ⟨ht, (tracker_name_matches_iff _ t).mpr hkey⟩
      rw [hfil₂] at hmem
      rw [List.mem_singleton] at hmem
      subst hmem
      exact ⟨hactive₂, htp₂⟩

/-- Witness for C1: from the empty state, issuing the same
track-"PS5"-below-12000 request twice leaves exactly one active
tracker for the key "ps5". -/
theorem C1_tracker_upsert_witness :
    countActiveTrackers (pyLower "PS5")
      (apply_track_calls [{ floatParse := fun s => if s == "12000" then some (12000 : ℚ) else none, search := Except.ok none, use_db := false, save_throws := false, now := 0, new_id := "1", user_id := "user1", intent := { action := "track_product", product_name := "PS5", target_price := "12000" } }, { floatParse := fun s => if s == "12000" then some (12000 : ℚ) else none, search := Except.ok none, use_db := false, save_throws := false, now := 0, new_id := "1", user_id := "user1", intent := { action := "track_product", product_name := "PS5", target_price := "12000" } }] []) = 1 := by
  exact ((C1_tracker_upsert [] (by simp)).2 { floatParse := fun s => if s == "12000" then some (12000 : ℚ) else none, search := Except.ok none, use_db := false, save_throws := false, now := 0, new_id := "1", user_id := "user1", intent := { action := "track_product", product_name := "PS5", target_price := "12000" } } { floatParse := fun s => if s == "12000" then some (12000 : ℚ) else none, search := Except.ok none, use_db := false, save_throws := false, now := 0, new_id := "1", user_id := "user1", intent := { action := "track_product", product_name := "PS5", target_price := "12000" } } rfl rfl rfl 12000 rfl
    (Or.inl rfl) (Or.inl rfl)).1
